import Mathlib

/-!
Verification development for the `datastar-soy` media-summary pipeline
(`process.py`).  The Python source is shallowly embedded: pure computations
become Lean functions, the orchestrator `process_video` becomes a function
from an environment of external-operation outcomes to the trace of actions
(published progress events, stage invocations, file operations) it performs.

Modelling conventions:
* Python `int` is `Int` (or `Nat` where the source value is a count);
* Python float arithmetic on small progress/percentage computations is
  modelled by exact rational / floor arithmetic (`ℚ`, `Nat` division);
* a Python function that may raise is given an `Except String` outcome in
  the environment, the `String` being the exception's text `f"{e}"`;
* `redis.publish` never fails in the model (the spec's Progress Channel is
  fire-and-forget); the event list is the sequence of `publish_update` calls,
  which is the published sequence whenever a `user_id` is attached.
-/

namespace Soy

/-- ProgressEvent as published by `publish_update` in `process.py`: a flat
JSON object with `status`, `message`, `progress`, and (for the complete
event only) `video_id` / `video_url` keys. -/
structure Event where
  status : String
  message : String
  progress : Nat
  video_id : Option String := none
  video_url : Option String := none
deriving DecidableEq, Repr

/-- Result of `get_video_info` (`process.py` lines 47-66). -/
structure VideoInfo where
  duration_seconds : Int
  title : String
  url : String
deriving DecidableEq, Repr

/-- The fields of the JSON document printed by the external metadata tool
(`yt-dlp -J`) that `get_video_info` reads; each may be absent. `duration`
is modelled as an integer (the source immediately casts it with `int`). -/
structure YtJson where
  duration : Option Int
  title : Option String
  webpage_url : Option String
deriving DecidableEq, Repr

/-- `get_video_info` (`process.py` lines 47-66): reads `duration` (default 0),
`title` truncated to 15 characters (default ""), and `webpage_url`
(default: the requested url) out of the tool's JSON output. -/
def get_video_info (url : String) (data : YtJson) : VideoInfo :=
  { duration_seconds := data.duration.getD 0
  , title := (data.title.getD "").take 15
  , url := data.webpage_url.getD url }

/-! ## Color Analyzer (`analyze_frame_colors`, `process.py` lines 93-115)

The k-means clustering itself (`scipy.cluster.vq.kmeans`) and the nearest-
centroid assignment (`vq`) are external numerical routines; the embedding
takes their outputs as inputs: `centroids` is the returned codebook with
each coordinate already cast by `int(c)`, and `labels` is the per-pixel
nearest-centroid index list produced by `vq` (one entry per pixel, each
index pointing into `centroids`). -/

/-- An RGB centroid, the three `int(c)` channel values. -/
abbrev RGB := Int × Int × Int

/-- One entry of the list returned by `analyze_frame_colors`:
`{'color_rgb': [...], 'percentage': ...}`. -/
structure Cluster where
  color_rgb : RGB
  percentage : Int
deriving DecidableEq, Repr

/-- Python's `round` on the exact rational value: round half to even. -/
def pyRound (q : ℚ) : ℤ :=
  let f := Int.fract q
  if f < 1/2 then ⌊q⌋
  else if 1/2 < f then ⌊q⌋ + 1
  else if ⌊q⌋ % 2 = 0 then ⌊q⌋ else ⌊q⌋ + 1

/-- `np.unique(labels)`: the distinct label values in ascending order. -/
def npUnique (labels : List Nat) : List Nat :=
  List.insertionSort (· ≤ ·) labels.dedup

/-- The `counts` array of `np.unique(labels, return_counts=True)`:
the number of occurrences of each distinct label, in the same (ascending
unique-value) order.  Note the length is the number of DISTINCT labels,
which is less than `len(centroids)` when some centroid got no pixels. -/
def npUniqueCounts (labels : List Nat) : List Nat :=
  (npUnique labels).map (fun v => labels.count v)

/-- `analyze_frame_colors` (`process.py` lines 93-115), after k-means:
for each centroid `i` report `round(counts[i] / total_pixels * 100)` when
`i < len(counts)` and `0.0` otherwise.  `total_pixels = h * w` is the
number of pixels, i.e. `labels.length`. -/
def analyze_frame_colors (centroids : List RGB) (labels : List Nat) : List Cluster :=
  let total_pixels : Nat := labels.length
  let counts := npUniqueCounts labels
  centroids.enum.map (fun p =>
    { color_rgb := p.2
    , percentage :=
        if h : p.1 < counts.length then
          pyRound ((counts.get ⟨p.1, h⟩ : ℚ) / (total_pixels : ℚ) * 100)
        else 0 })

/-! ## Page Builder (`build_page`, `process.py` lines 117-183) -/

/-- One FrameRecord document from the `frames` table. -/
structure FrameRec where
  frame_name : String
  analysis : List Cluster
deriving DecidableEq, Repr

/-- `colorsys.rgb_to_hls` of the CPython standard library, over exact
rationals (the source calls it on `x / 255.0` channel values).  Returns
`(h, l, s)`.  The float modulo `% 1.0` is `Int.fract`. -/
def rgb_to_hls (r g b : ℚ) : ℚ × ℚ × ℚ :=
  let maxc := max r (max g b)
  let minc := min r (min g b)
  let l := (maxc + minc) / 2
  if minc = maxc then (0, l, 0)
  else
    let rangec := maxc - minc
    let s := if l ≤ 1/2 then rangec / (maxc + minc) else rangec / (2 - (maxc + minc))
    let rc := (maxc - r) / rangec
    let gc := (maxc - g) / rangec
    let bc := (maxc - b) / rangec
    let h0 := if r = maxc then bc - gc else if g = maxc then 2 + rc - bc else 4 + gc - rc
    (Int.fract (h0 / 6), l, s)

/-- The inner `rgb_to_hsl` of `build_page` (lines 133-136): divide the
channels by 255, call `colorsys.rgb_to_hls`, and reorder to `(h, s, l)`. -/
def rgb_to_hsl (rgb : RGB) : ℚ × ℚ × ℚ :=
  let r : ℚ := (rgb.1 : ℚ) / 255
  let g : ℚ := (rgb.2.1 : ℚ) / 255
  let b : ℚ := (rgb.2.2 : ℚ) / 255
  let hls := rgb_to_hls r g b
  (hls.1, hls.2.2, hls.2.1)

/-- The sort key used on line 139: the `(h, s, l)` triple of the cluster's
centroid RGB. -/
def hslKey (c : Cluster) : ℚ × ℚ × ℚ :=
  rgb_to_hsl c.color_rgb

/-- Lexicographic comparison of `(h, s, l)` triples: how Python's `sorted`
compares tuple keys. -/
def tripLe (a b : ℚ × ℚ × ℚ) : Prop :=
  a.1 < b.1 ∨ (a.1 = b.1 ∧ (a.2.1 < b.2.1 ∨ (a.2.1 = b.2.1 ∧ a.2.2 ≤ b.2.2)))

instance : DecidableRel tripLe := fun a b => by unfold tripLe; infer_instance

/-- The effective ordering of `sorted(clusters, key=rgb_to_hsl ∘ color_rgb)`. -/
def clusterLe (x y : Cluster) : Prop := tripLe (hslKey x) (hslKey y)

instance : DecidableRel clusterLe := fun a b => by unfold clusterLe; infer_instance

/-- `sorted_clusters` of `build_page` (lines 138-139).  Line 138 sorts by
percentage but its result is immediately overwritten by line 139's sort of
the ORIGINAL `clusters` list by the HSL key, so only the HSL sort is
effective.  Python's `sorted` is a stable comparison sort; we model it with
`insertionSort` (also stable) under the tuple-lexicographic key order. -/
def sorted_clusters (clusters : List Cluster) : List Cluster :=
  List.insertionSort clusterLe clusters

/-- `rgb_style` (lines 119-120). -/
def rgb_style (rgb : RGB) : String :=
  let r := rgb.1
  let g := rgb.2.1
  let b := rgb.2.2
  s!"background-color: rgb({r}, {g}, {b})"

/-- One color bar `<div>` of the stack (line 144). -/
def barDiv (cl : Cluster) : String :=
  let sty := rgb_style cl.color_rgb
  let pct := cl.percentage
  s!"<div style=\"{sty}; height: {pct}%\"></div>\n"

/-- The `color_bars` string accumulated for one frame (lines 131-144):
one bar per cluster, in `sorted_clusters` order. -/
def color_bars (clusters : List Cluster) : String :=
  String.join ((sorted_clusters clusters).map barDiv)

/-- The `<div>` appended to `frames_list` for one frame (lines 145-151). -/
def frameDiv (folderName : String) (f : FrameRec) : String :=
  let bars := color_bars f.analysis
  let nm := f.frame_name
  let src := s!"/videos/{folderName}/{nm}"
  "\n<div>\n    " ++ bars ++ s!"<img src=\"{src}\"></img>\n</div>\n"

/-- `frames_list` of `build_page` (lines 125-151): one entry is appended
per element of `frames` — the loop body contains no filtering condition. -/
def frames_list (folderName : String) (frames : List FrameRec) : List String :=
  frames.map (frameDiv folderName)

/-- `columns` (lines 153-154): `frames_count if frames_count > 0 else 1`. -/
def columns (frames_count : Nat) : Nat :=
  if frames_count > 0 then frames_count else 1

/-- The `db_details` row (`process.py` lines 224-228). -/
structure DbDetails where
  name : String
  url : String
  length_seconds : Int
deriving DecidableEq, Repr

/-- The full HTML page assembled by `build_page` (lines 122-176). -/
def build_page_html (folderName video_url : String) (details : List DbDetails)
    (frames : List FrameRec) : String :=
  let name := match details with
    | [] => "Video ?!"
    | d :: _ => d.name
  let url := match details with
    | [] => video_url
    | d :: _ => d.url
  let fl := frames_list folderName frames
  let cols := columns fl.length
  let body := String.join fl
  "\n<!DOCTYPE html>\n<html lang=\"en\">\n<head>\n    <meta charset=\"UTF-8\">\n" ++
  "    <meta name=\"viewport\" content=\"width=device-width, initial-scale=1.0\">\n" ++
  "    <title>SOY</title>\n    <link rel=\"icon\" href=\"/static/img/rocket.png\">\n" ++
  "    <link rel=\"stylesheet\" href=\"/static/css/site.css\">\n" ++
  "    <script type=\"module\" src=\"/static/js/datastar.js\"></script>\n</head>\n" ++
  "<body class=\"gc\">\n    <h1 class=\"gt-xl gm-xl\"><a href=\"" ++ url ++ "\">" ++
  name ++ "</a></h1>\n    <article class=\"gc\">\n        <div class=\"frames\" " ++
  s!"style=\"grid-template-columns: repeat({cols}, 1fr)\">\n            " ++
  body ++ "\n        </div>\n    </article>\n</body>\n</html>\n"

/-! ### File-system effect of `build_page` (lines 177-183) -/

/-- A tiny file-system model: a mapping from path to file content. -/
structure FsState where
  files : String → Option String

/-- The file operations the pipeline performs on the result page. -/
inductive FileOp where
  | write (path : String) (content : String)
  | replace (src dst : String)
deriving DecidableEq, Repr

/-- Effect of one operation.  `replace` is `os.replace`: atomically move
`src` onto `dst` (overwriting `dst`, removing `src`). -/
def applyOp (s : FsState) : FileOp → FsState
  | .write p c => ⟨fun q => if q = p then some c else s.files q⟩
  | .replace src dst =>
      ⟨fun q => if q = dst then s.files src else if q = src then none else s.files q⟩

def applyOps (s : FsState) : List FileOp → FsState
  | [] => s
  | op :: rest => applyOps (applyOp s op) rest

def tmpPageName (folder : String) : String := folder ++ "/video.html.tmp"

def finalPageName (folder : String) : String := folder ++ "/video.html"

/-- The write discipline of `build_page` (lines 177-183): write the whole
page to `video.html.tmp`, then `os.replace` it onto `video.html`. -/
def build_page_ops (folder html : String) : List FileOp :=
  [FileOp.write (tmpPageName folder) html,
   FileOp.replace (tmpPageName folder) (finalPageName folder)]

/-! ## Job Orchestrator (`process_video`, `process.py` lines 185-274)

An action is either a `publish_update` call or the invocation of a stage
side effect.  `download` is the call to `download_video` (which writes
`video.mp4`); `unlinkVideo ok` is the call to `video_path.unlink()`, the
flag recording whether the deletion succeeded (an exception during `unlink`
leaves the file and jumps to the error handler). -/
inductive Act where
  | publish (e : Event)
  | download
  | extract
  | dbInsertDetails
  | analyzeFrame (name : String)
  | buildPage
  | unlinkVideo (ok : Bool)
deriving DecidableEq, Repr

/-- Outcomes of the external / fallible operations one run of
`process_video` performs, in stage order.  An `Except.error m` means the
corresponding Python call raised an exception whose text is `m`.
`frameResults` is the sorted `frame_*.jpg` glob, each file paired with the
outcome of its `analyze_frame_colors` + `db_frames.insert` step. -/
structure Env where
  metaRes : Except String VideoInfo
  downloadRes : Except String Unit
  fileValid : Bool
  extractRes : Except String Unit
  dbDetailsRes : Except String Unit
  frameResults : List (String × Except String Unit)
  buildRes : Except String Unit
  unlinkRes : Except String Unit

def invalidDurationMsg : String :=
  "Invalid or unsupported video duration (must be between 1 and 60 seconds)"

def invalidFileMsg : String := "Video download did not produce a valid file"

def noFramesMsg : String := "No frames were extracted from the video"

def fetchingEvent : Event :=
  { status := "fetching_metadata", message := "Getting video info...", progress := 5 }

def downloadingEvent (title quality : String) : Event :=
  { status := "downloading", message := s!"Downloading {title} in {quality}...", progress := 15 }

def extractingEvent : Event :=
  { status := "extracting_frames", message := "Extracting frames...", progress := 35 }

def analyzingEntryEvent (n : Nat) : Event :=
  { status := "analyzing", message := s!"Analyzing {n} frames...", progress := 40 }

/-- Per-frame analysis progress (lines 246-251):
`min(50 + int(40 * (index / total)), 90)`; the float product is modelled by
its exact floor `(40 * i) / total` in `Nat`. -/
def analyzeFrameEvent (total i : Nat) : Event :=
  { status := "analyzing", message := s!"Analyzed {i}/{total} frames..."
  , progress := min (50 + (40 * i) / total) 90 }

def buildingEvent : Event :=
  { status := "building_page", message := "Generating HTML page...", progress := 95 }

def completeEvent (folder_id : String) : Event :=
  { status := "complete", message := "Processing complete!", progress := 100
  , video_id := some folder_id, video_url := some ("/v/" ++ folder_id) }

def errEvent (m : String) : Event :=
  { status := "error", message := m, progress := 100 }

def errAct (m : String) : Act := Act.publish (errEvent m)

/-- The analysis loop (lines 237-251), `enumerate(frame_files, start=1)`:
analyze + insert each frame, publishing the per-frame event after each
success; the first per-frame exception aborts the loop.  Returns the
actions performed and the raised exception text, if any. -/
def analyzeSteps (total : Nat) :
    List (String × Except String Unit) → Nat → List Act × Option String
  | [], _ => ([], none)
  | f :: rest, idx =>
    match f.2 with
    | .error m => ([Act.analyzeFrame f.1], some m)
    | .ok _ =>
      let r := analyzeSteps total rest (idx + 1)
      (Act.analyzeFrame f.1 :: Act.publish (analyzeFrameEvent total idx) :: r.1, r.2)

/-- The `try:` block of `process_video` (lines 200-266): the actions
performed and, if a stage raised, the exception text that reaches the
`except` handler. -/
def tryBody (folder_id : String) (env : Env) (quality : String) :
    List Act × Option String :=
  let a1 := [Act.publish fetchingEvent]
  match env.metaRes with
  | .error m => (a1, some m)
  | .ok meta =>
    if meta.duration_seconds ≤ 0 ∨ 60 < meta.duration_seconds then
      (a1, some invalidDurationMsg)
    else
      let a2 := a1 ++ [Act.publish (downloadingEvent meta.title quality), Act.download]
      match env.downloadRes with
      | .error m => (a2, some m)
      | .ok _ =>
        if env.fileValid = false then (a2, some invalidFileMsg)
        else
          let a3 := a2 ++ [Act.publish extractingEvent, Act.extract]
          match env.extractRes with
          | .error m => (a3, some m)
          | .ok _ =>
            match env.dbDetailsRes with
            | .error m => (a3 ++ [Act.dbInsertDetails], some m)
            | .ok _ =>
              let a4 := a3 ++ [Act.dbInsertDetails]
              if env.frameResults.length = 0 then (a4, some noFramesMsg)
              else
                let total := env.frameResults.length
                let a5 := a4 ++ [Act.publish (analyzingEntryEvent total)]
                let r := analyzeSteps total env.frameResults 1
                match r.2 with
                | some m => (a5 ++ r.1, some m)
                | none =>
                  let a6 := a5 ++ r.1 ++ [Act.publish buildingEvent, Act.buildPage]
                  match env.buildRes with
                  | .error m => (a6, some m)
                  | .ok _ =>
                    match env.unlinkRes with
                    | .error m => (a6 ++ [Act.unlinkVideo false], some m)
                    | .ok _ =>
                      (a6 ++ [Act.unlinkVideo true,
                              Act.publish (completeEvent folder_id)], none)

/-- `process_video` (lines 185-274): run the `try:` body; the `except`
handler converts a raised exception into one final error event with the
exception's text and progress 100, and does not re-raise (the function is
total). -/
def process_video (folder_id : String) (env : Env) (quality : String) : List Act :=
  match tryBody folder_id env quality with
  | (acts, none) => acts
  | (acts, some m) => acts ++ [errAct m]

def eventOf : Act → Option Event
  | Act.publish e => some e
  | _ => none

/-- The sequence of ProgressEvents handed to `publish_update`, in order. -/
def eventsOf (acts : List Act) : List Event := acts.filterMap eventOf

/-! ## Order facts about the HSL sort key -/

lemma tripLe_total (a b : ℚ × ℚ × ℚ) : tripLe a b ∨ tripLe b a := by
  unfold tripLe
  rcases lt_trichotomy a.1 b.1 with h | h | h
  · exact Or.inl (Or.inl h)
  · rcases lt_trichotomy a.2.1 b.2.1 with h2 | h2 | h2
    · exact Or.inl (Or.inr ⟨h, Or.inl h2⟩)
    · rcases le_total a.2.2 b.2.2 with h3 | h3
      · exact Or.inl (Or.inr ⟨h, Or.inr ⟨h2, h3⟩⟩)
      · exact Or.inr (Or.inr ⟨h.symm, Or.inr ⟨h2.symm, h3⟩⟩)
    · exact Or.inr (Or.inr ⟨h.symm, Or.inl h2⟩)
  · exact Or.inr (Or.inl h)

lemma tripLe_trans (a b c : ℚ × ℚ × ℚ) (hab : tripLe a b) (hbc : tripLe b c) :
    tripLe a c := by
  unfold tripLe at hab hbc ⊢
  rcases hab with h1 | ⟨e1, h1⟩
  · rcases hbc with h2 | ⟨e2, _⟩
    · exact Or.inl (h1.trans h2)
    · exact Or.inl (lt_of_lt_of_eq h1 e2)
  · rcases hbc with h2 | ⟨e2, h2⟩
    · exact Or.inl (lt_of_eq_of_lt e1 h2)
    · refine Or.inr ⟨e1.trans e2, ?_⟩
      rcases h1 with h1 | ⟨f1, g1⟩
      · rcases h2 with h2 | ⟨f2, _⟩
        · exact Or.inl (h1.trans h2)
        · exact Or.inl (lt_of_lt_of_eq h1 f2)
      · rcases h2 with h2 | ⟨f2, g2⟩
        · exact Or.inl (lt_of_eq_of_lt f1 h2)
        · exact Or.inr ⟨f1.trans f2, g1.trans g2⟩

instance : IsTotal Cluster clusterLe := ⟨fun a b => tripLe_total _ _⟩

instance : IsTrans Cluster clusterLe := ⟨fun a b c => tripLe_trans _ _ _⟩

/-! ## Trace prefixes reached by the successive stages of `process_video` -/

def preMeta : List Act := [Act.publish fetchingEvent]

def preDownload (title q : String) : List Act :=
  preMeta ++ [Act.publish (downloadingEvent title q), Act.download]

def preExtract (title q : String) : List Act :=
  preDownload title q ++ [Act.publish extractingEvent, Act.extract]

def preDb (title q : String) : List Act :=
  preExtract title q ++ [Act.dbInsertDetails]

def preAnalyze (title q : String) (n : Nat) : List Act :=
  preDb title q ++ [Act.publish (analyzingEntryEvent n)]

/-- Duration accepted by the guard on line 206. -/
def durOk (info : VideoInfo) : Prop :=
  0 < info.duration_seconds ∧ info.duration_seconds ≤ 60

lemma durOk_not_guard {info : VideoInfo} (h : durOk info) :
    ¬ (info.duration_seconds ≤ 0 ∨ 60 < info.duration_seconds) := by
  rcases h with ⟨h1, h2⟩
  push_neg
  exact ⟨h1, h2⟩

/-! ## Shape of the analysis loop's action list -/

lemma analyzeSteps_mem {total : Nat} :
    ∀ {l : List (String × Except String Unit)} {idx : Nat} {a : Act},
      a ∈ (analyzeSteps total l idx).1 →
      (∃ nm, a = Act.analyzeFrame nm) ∨ ∃ i, a = Act.publish (analyzeFrameEvent total i)
  | [], _, _, h => by simp [analyzeSteps] at h
  | f :: rest, idx, a, h => by
    rcases hf : f.2 with m | u
    · rw [analyzeSteps, hf] at h
      simp only [List.mem_singleton] at h
      exact Or.inl ⟨f.1, h⟩
    · rw [analyzeSteps, hf] at h
      simp only [List.mem_cons] at h
      rcases h with h | h | h
      · exact Or.inl ⟨f.1, h⟩
      · exact Or.inr ⟨idx, h⟩
      · exact analyzeSteps_mem h

lemma analyzeSteps_events (total : Nat) :
    ∀ (l : List (String × Except String Unit)) (idx : Nat),
      ∃ k, k ≤ l.length ∧
        eventsOf (analyzeSteps total l idx).1
          = (List.range k).map (fun j => analyzeFrameEvent total (idx + j))
  | [], idx => ⟨0, by simp [analyzeSteps, eventsOf]⟩
  | f :: rest, idx => by
    rcases hf : f.2 with m | u
    · exact ⟨0, by simp, by rw [analyzeSteps, hf]; simp [eventsOf, eventOf]⟩
    · obtain ⟨k, hk, hev⟩ := analyzeSteps_events total rest (idx + 1)
      refine ⟨k + 1, by simp; omega, ?_⟩
      rw [analyzeSteps, hf]
      simp only [eventsOf, List.filterMap_cons, eventOf] at hev ⊢
      rw [hev, List.range_succ_eq_map]
      simp only [List.map_cons, List.map_map, Nat.add_zero]
      refine congrArg₂ _ rfl ?_
      apply List.map_congr_left
      intro j _
      simp only [Function.comp_apply]
      have : idx + 1 + j = idx + (j + 1) := by omega
      rw [this]

lemma analyzeSteps_ok (total : Nat) :
    ∀ (names : List String) (idx : Nat),
      (analyzeSteps total (names.map (fun nm => (nm, Except.ok ()))) idx).2 = none
      ∧ eventsOf (analyzeSteps total (names.map (fun nm => (nm, Except.ok ()))) idx).1
          = (List.range names.length).map (fun j => analyzeFrameEvent total (idx + j))
  | [], idx => by simp [analyzeSteps, eventsOf]
  | nm :: names, idx => by
    obtain ⟨h2, hev⟩ := analyzeSteps_ok total names (idx + 1)
    constructor
    · simp only [List.map_cons, analyzeSteps]
      exact h2
    · simp only [List.map_cons, analyzeSteps, eventsOf, List.filterMap_cons, eventOf,
        List.length_cons] at hev ⊢
      rw [hev, List.range_succ_eq_map]
      simp only [List.map_cons, List.map_map, Nat.add_zero]
      refine congrArg₂ _ rfl ?_
      apply List.map_congr_left
      intro j _
      simp only [Function.comp_apply]
      have : idx + 1 + j = idx + (j + 1) := by omega
      rw [this]

/-! ## Per-branch traces of `process_video` -/

lemma pv_of_tryBody_err {fid q m : String} {env : Env} {acts : List Act}
    (h : tryBody fid env q = (acts, some m)) :
    process_video fid env q = acts ++ [errAct m] := by
  unfold process_video
  rw [h]

lemma pv_of_tryBody_ok {fid q : String} {env : Env} {acts : List Act}
    (h : tryBody fid env q = (acts, none)) :
    process_video fid env q = acts := by
  unfold process_video
  rw [h]

lemma tryBody_meta_err (fid q m : String) (env : Env)
    (h : env.metaRes = Except.error m) :
    tryBody fid env q = (preMeta, some m) := by
  unfold tryBody
  rw [h]
  rfl

lemma tryBody_bad_duration (fid q : String) (env : Env) (info : VideoInfo)
    (hm : env.metaRes = Except.ok info)
    (hd : info.duration_seconds ≤ 0 ∨ 60 < info.duration_seconds) :
    tryBody fid env q = (preMeta, some invalidDurationMsg) := by
  unfold tryBody
  rw [hm]
  simp only [if_pos hd]
  rfl

lemma tryBody_download_err (fid q m : String) (env : Env) (info : VideoInfo)
    (hm : env.metaRes = Except.ok info) (hd : durOk info)
    (hdl : env.downloadRes = Except.error m) :
    tryBody fid env q = (preDownload info.title q, some m) := by
  unfold tryBody
  rw [hm]
  simp only [if_neg (durOk_not_guard hd)]
  rw [hdl]
  rfl

lemma tryBody_file_invalid (fid q : String) (env : Env) (info : VideoInfo)
    (hm : env.metaRes = Except.ok info) (hd : durOk info)
    (hdl : env.downloadRes = Except.ok ()) (hfv : env.fileValid = false) :
    tryBody fid env q = (preDownload info.title q, some invalidFileMsg) := by
  unfold tryBody
  rw [hm]
  simp only [if_neg (durOk_not_guard hd)]
  rw [hdl, hfv]
  rfl

lemma tryBody_extract_err (fid q m : String) (env : Env) (info : VideoInfo)
    (hm : env.metaRes = Except.ok info) (hd : durOk info)
    (hdl : env.downloadRes = Except.ok ()) (hfv : env.fileValid = true)
    (hex : env.extractRes = Except.error m) :
    tryBody fid env q = (preExtract info.title q, some m) := by
  unfold tryBody
  rw [hm]
  simp only [if_neg (durOk_not_guard hd)]
  rw [hdl, hfv, hex]
  rfl

lemma tryBody_db_err (fid q m : String) (env : Env) (info : VideoInfo)
    (hm : env.metaRes = Except.ok info) (hd : durOk info)
    (hdl : env.downloadRes = Except.ok ()) (hfv : env.fileValid = true)
    (hex : env.extractRes = Except.ok ()) (hdb : env.dbDetailsRes = Except.error m) :
    tryBody fid env q = (preDb info.title q, some m) := by
  unfold tryBody
  rw [hm]
  simp only [if_neg (durOk_not_guard hd)]
  rw [hdl, hfv, hex, hdb]
  rfl

lemma tryBody_no_frames (fid q : String) (env : Env) (info : VideoInfo)
    (hm : env.metaRes = Except.ok info) (hd : durOk info)
    (hdl : env.downloadRes = Except.ok ()) (hfv : env.fileValid = true)
    (hex : env.extractRes = Except.ok ()) (hdb : env.dbDetailsRes = Except.ok ())
    (hfr : env.frameResults = []) :
    tryBody fid env q = (preDb info.title q, some noFramesMsg) := by
  unfold tryBody
  rw [hm]
  simp only [if_neg (durOk_not_guard hd)]
  rw [hdl, hfv, hex, hdb, hfr]
  rfl

lemma tryBody_frames (fid q : String) (env : Env) (info : VideoInfo)
    (hm : env.metaRes = Except.ok info) (hd : durOk info)
    (hdl : env.downloadRes = Except.ok ()) (hfv : env.fileValid = true)
    (hex : env.extractRes = Except.ok ()) (hdb : env.dbDetailsRes = Except.ok ())
    (hfr : env.frameResults.length ≠ 0) :
    tryBody fid env q =
      (let n := env.frameResults.length
       let r := analyzeSteps n env.frameResults 1
       match r.2 with
       | some m => (preAnalyze info.title q n ++ r.1, some m)
       | none =>
         let a6 := preAnalyze info.title q n ++ r.1 ++
           [Act.publish buildingEvent, Act.buildPage]
         match env.buildRes with
         | .error m => (a6, some m)
         | .ok _ =>
           match env.unlinkRes with
           | .error m => (a6 ++ [Act.unlinkVideo false], some m)
           | .ok _ => (a6 ++ [Act.unlinkVideo true,
                              Act.publish (completeEvent fid)], none)) := by
  unfold tryBody
  rw [hm]
  simp only [if_neg (durOk_not_guard hd)]
  rw [hdl, hfv, hex, hdb]
  simp only [if_neg hfr]
  rfl

/-- Exhaustive characterization of one run of `process_video`: exactly one
of the eleven control-flow exits is taken, and the produced action trace is
the corresponding stage prefix followed (on the exception paths) by the
single terminal error event. -/
lemma pv_cases (fid q : String) (env : Env) :
    (∃ m, env.metaRes = Except.error m ∧
        process_video fid env q = preMeta ++ [errAct m])
  ∨ (∃ info, env.metaRes = Except.ok info
        ∧ (info.duration_seconds ≤ 0 ∨ 60 < info.duration_seconds)
        ∧ process_video fid env q = preMeta ++ [errAct invalidDurationMsg])
  ∨ (∃ info m, env.metaRes = Except.ok info ∧ durOk info
        ∧ env.downloadRes = Except.error m
        ∧ process_video fid env q = preDownload info.title q ++ [errAct m])
  ∨ (∃ info, env.metaRes = Except.ok info ∧ durOk info
        ∧ env.downloadRes = Except.ok () ∧ env.fileValid = false
        ∧ process_video fid env q = preDownload info.title q ++ [errAct invalidFileMsg])
  ∨ (∃ info m, env.metaRes = Except.ok info ∧ durOk info
        ∧ env.downloadRes = Except.ok () ∧ env.fileValid = true
        ∧ env.extractRes = Except.error m
        ∧ process_video fid env q = preExtract info.title q ++ [errAct m])
  ∨ (∃ info m, env.metaRes = Except.ok info ∧ durOk info
        ∧ env.downloadRes = Except.ok () ∧ env.fileValid = true
        ∧ env.extractRes = Except.ok () ∧ env.dbDetailsRes = Except.error m
        ∧ process_video fid env q = preDb info.title q ++ [errAct m])
  ∨ (∃ info, env.metaRes = Except.ok info ∧ durOk info
        ∧ env.downloadRes = Except.ok () ∧ env.fileValid = true
        ∧ env.extractRes = Except.ok () ∧ env.dbDetailsRes = Except.ok ()
        ∧ env.frameResults = []
        ∧ process_video fid env q = preDb info.title q ++ [errAct noFramesMsg])
  ∨ (∃ info, env.metaRes = Except.ok info ∧ durOk info
        ∧ env.downloadRes = Except.ok () ∧ env.fileValid = true
        ∧ env.extractRes = Except.ok () ∧ env.dbDetailsRes = Except.ok ()
        ∧ env.frameResults ≠ []
        ∧ ((∃ m, (analyzeSteps env.frameResults.length env.frameResults 1).2 = some m
              ∧ process_video fid env q
                  = preAnalyze info.title q env.frameResults.length
                    ++ (analyzeSteps env.frameResults.length env.frameResults 1).1
                    ++ [errAct m])
          ∨ ((analyzeSteps env.frameResults.length env.frameResults 1).2 = none
            ∧ ((∃ m, env.buildRes = Except.error m
                  ∧ process_video fid env q
                      = preAnalyze info.title q env.frameResults.length
                        ++ (analyzeSteps env.frameResults.length env.frameResults 1).1
                        ++ [Act.publish buildingEvent, Act.buildPage, errAct m])
              ∨ (env.buildRes = Except.ok ()
                ∧ ((∃ m, env.unlinkRes = Except.error m
                      ∧ process_video fid env q
                          = preAnalyze info.title q env.frameResults.length
                            ++ (analyzeSteps env.frameResults.length env.frameResults 1).1
                            ++ [Act.publish buildingEvent, Act.buildPage,
                                Act.unlinkVideo false, errAct m])
                  ∨ (env.unlinkRes = Except.ok ()
                      ∧ process_video fid env q
                          = preAnalyze info.title q env.frameResults.length
                            ++ (analyzeSteps env.frameResults.length env.frameResults 1).1
                            ++ [Act.publish buildingEvent, Act.buildPage,
                                Act.unlinkVideo true,
                                Act.publish (completeEvent fid)]))))))) := by
  rcases hm : env.metaRes with m | info
  · exact Or.inl ⟨m, rfl, pv_of_tryBody_err (tryBody_meta_err fid q m env hm)⟩
  by_cases hd : info.duration_seconds ≤ 0 ∨ 60 < info.duration_seconds
  · exact Or.inr (Or.inl ⟨info, rfl, hd,
      pv_of_tryBody_err (tryBody_bad_duration fid q env info hm hd)⟩)
  have hdo : durOk info := by
    push_neg at hd
    exact ⟨hd.1, hd.2⟩
  rcases hdl : env.downloadRes with m | u
  · exact Or.inr (Or.inr (Or.inl ⟨info, m, rfl, hdo, rfl,
      pv_of_tryBody_err (tryBody_download_err fid q m env info hm hdo hdl)⟩))
  cases u
  cases hfv : env.fileValid
  · exact Or.inr (Or.inr (Or.inr (Or.inl ⟨info, rfl, hdo, rfl, rfl,
      pv_of_tryBody_err (tryBody_file_invalid fid q env info hm hdo hdl hfv)⟩)))
  rcases hex : env.extractRes with m | u
  · exact Or.inr (Or.inr (Or.inr (Or.inr (Or.inl ⟨info, m, rfl, hdo, rfl, rfl, rfl,
      pv_of_tryBody_err (tryBody_extract_err fid q m env info hm hdo hdl hfv hex)⟩))))
  cases u
  rcases hdb : env.dbDetailsRes with m | u
  · exact Or.inr (Or.inr (Or.inr (Or.inr (Or.inr (Or.inl ⟨info, m, rfl, hdo, rfl, rfl,
      rfl, rfl,
      pv_of_tryBody_err (tryBody_db_err fid q m env info hm hdo hdl hfv hex hdb)⟩)))))
  cases u
  by_cases hfr : env.frameResults = []
  · exact Or.inr (Or.inr (Or.inr (Or.inr (Or.inr (Or.inr (Or.inl ⟨info, rfl, hdo, rfl,
      rfl, rfl, rfl, hfr,
      pv_of_tryBody_err (tryBody_no_frames fid q env info hm hdo hdl hfv hex hdb hfr)⟩))))))
  have hlen : env.frameResults.length ≠ 0 := fun h => hfr (List.length_eq_zero.mp h)
  have ht := tryBody_frames fid q env info hm hdo hdl hfv hex hdb hlen
  refine Or.inr (Or.inr (Or.inr (Or.inr (Or.inr (Or.inr (Or.inr
    ⟨info, rfl, hdo, rfl, rfl, rfl, rfl, hfr, ?_⟩))))))
  rcases ha : (analyzeSteps env.frameResults.length env.frameResults 1).2 with _ | m
  · simp only [ha] at ht
    rcases hb : env.buildRes with m | u
    · simp only [hb] at ht
      exact Or.inr ⟨rfl, Or.inl ⟨m, rfl,
        by
          have h2 := pv_of_tryBody_err ht
          rw [h2]
          simp⟩⟩
    cases u
    simp only [hb] at ht
    rcases hu : env.unlinkRes with m | u
    · simp only [hu] at ht
      exact Or.inr ⟨rfl, Or.inr ⟨rfl, Or.inl ⟨m, rfl,
        by
          have h2 := pv_of_tryBody_err ht
          rw [h2]
          simp⟩⟩⟩
    cases u
    simp only [hu] at ht
    exact Or.inr ⟨rfl, Or.inr ⟨rfl, Or.inr ⟨rfl,
      by
        have h2 := pv_of_tryBody_ok ht
        rw [h2]
        simp⟩⟩⟩
  · simp only [ha] at ht
    exact Or.inl ⟨m, rfl, pv_of_tryBody_err ht⟩

/-! ## Event-trace helpers -/

lemma eventsOf_append (l1 l2 : List Act) :
    eventsOf (l1 ++ l2) = eventsOf l1 ++ eventsOf l2 :=
  List.filterMap_append l1 l2 eventOf

lemma eventsOf_preMeta : eventsOf preMeta = [fetchingEvent] := rfl

lemma eventsOf_preDownload (t q : String) :
    eventsOf (preDownload t q) = [fetchingEvent, downloadingEvent t q] := rfl

lemma eventsOf_preExtract (t q : String) :
    eventsOf (preExtract t q) = [fetchingEvent, downloadingEvent t q, extractingEvent] := rfl

lemma eventsOf_preDb (t q : String) :
    eventsOf (preDb t q) = [fetchingEvent, downloadingEvent t q, extractingEvent] := rfl

lemma eventsOf_preAnalyze (t q : String) (n : Nat) :
    eventsOf (preAnalyze t q n)
      = [fetchingEvent, downloadingEvent t q, extractingEvent, analyzingEntryEvent n] := rfl

lemma getLast?_append_single {α : Type} : ∀ (l : List α) (a : α), (l ++ [a]).getLast? = some a
  | [], _ => rfl
  | [_], _ => rfl
  | b :: c :: l, a => by
    rw [List.cons_append, List.cons_append, List.getLast?_cons_cons, ← List.cons_append]
    exact getLast?_append_single (c :: l) a

lemma mem_eventsOf_analyzeSteps {total idx : Nat} {l : List (String × Except String Unit)}
    {e : Event} (h : e ∈ eventsOf (analyzeSteps total l idx).1) :
    ∃ i, e = analyzeFrameEvent total i := by
  obtain ⟨k, _, hev⟩ := analyzeSteps_events total l idx
  rw [hev] at h
  simp only [List.mem_map, List.mem_range] at h
  obtain ⟨j, _, rfl⟩ := h
  exact ⟨idx + j, rfl⟩

lemma download_not_mem_analyzeSteps {total idx : Nat} {l : List (String × Except String Unit)} :
    Act.download ∉ (analyzeSteps total l idx).1 := fun h => by
  rcases analyzeSteps_mem h with ⟨nm, h2⟩ | ⟨i, h2⟩ <;> exact Act.noConfusion h2

lemma extract_not_mem_analyzeSteps {total idx : Nat} {l : List (String × Except String Unit)} :
    Act.extract ∉ (analyzeSteps total l idx).1 := fun h => by
  rcases analyzeSteps_mem h with ⟨nm, h2⟩ | ⟨i, h2⟩ <;> exact Act.noConfusion h2

lemma buildPage_not_mem_analyzeSteps {total idx : Nat} {l : List (String × Except String Unit)} :
    Act.buildPage ∉ (analyzeSteps total l idx).1 := fun h => by
  rcases analyzeSteps_mem h with ⟨nm, h2⟩ | ⟨i, h2⟩ <;> exact Act.noConfusion h2

lemma unlink_not_mem_analyzeSteps {total idx : Nat} {l : List (String × Except String Unit)}
    {b : Bool} : Act.unlinkVideo b ∉ (analyzeSteps total l idx).1 := fun h => by
  rcases analyzeSteps_mem h with ⟨nm, h2⟩ | ⟨i, h2⟩ <;> exact Act.noConfusion h2

lemma publish_mem_analyzeSteps {total idx : Nat} {l : List (String × Except String Unit)}
    {e : Event} (h : Act.publish e ∈ (analyzeSteps total l idx).1) :
    ∃ i, e = analyzeFrameEvent total i := by
  rcases analyzeSteps_mem h with ⟨nm, h2⟩ | ⟨i, h2⟩
  · exact Act.noConfusion h2
  · injection h2 with he
    exact ⟨i, he⟩

lemma status_fetching : fetchingEvent.status = "fetching_metadata" := rfl

lemma status_analyzeFrame (total i : Nat) :
    (analyzeFrameEvent total i).status = "analyzing" := rfl

lemma status_not_error_preAnalyze {t q : String} {n : Nat} :
    ∀ e ∈ eventsOf (preAnalyze t q n), e.status ≠ "error" := by
  intro e he
  rw [eventsOf_preAnalyze] at he
  simp only [List.mem_cons, List.not_mem_nil, or_false] at he
  rcases he with rfl | rfl | rfl | rfl <;>
    simp [fetchingEvent, downloadingEvent, extractingEvent, analyzingEntryEvent]

lemma status_not_error_preMeta : ∀ e ∈ eventsOf preMeta, e.status ≠ "error" := by
  intro e he
  rw [eventsOf_preMeta] at he
  simp only [List.mem_singleton] at he
  subst he
  simp [fetchingEvent]

lemma status_not_error_preDownload {t q : String} :
    ∀ e ∈ eventsOf (preDownload t q), e.status ≠ "error" := by
  intro e he
  rw [eventsOf_preDownload] at he
  simp only [List.mem_cons, List.not_mem_nil, or_false] at he
  rcases he with rfl | rfl <;> simp [fetchingEvent, downloadingEvent]

lemma status_not_error_preExtract {t q : String} :
    ∀ e ∈ eventsOf (preExtract t q), e.status ≠ "error" := by
  intro e he
  rw [eventsOf_preExtract] at he
  simp only [List.mem_cons, List.not_mem_nil, or_false] at he
  rcases he with rfl | rfl | rfl <;> simp [fetchingEvent, downloadingEvent, extractingEvent]

lemma status_not_error_preDb {t q : String} :
    ∀ e ∈ eventsOf (preDb t q), e.status ≠ "error" := by
  intro e he
  rw [eventsOf_preDb] at he
  simp only [List.mem_cons, List.not_mem_nil, or_false] at he
  rcases he with rfl | rfl | rfl <;> simp [fetchingEvent, downloadingEvent, extractingEvent]

lemma status_not_error_analyzeSteps {total idx : Nat} {l : List (String × Except String Unit)} :
    ∀ e ∈ eventsOf (analyzeSteps total l idx).1, e.status ≠ "error" := by
  intro e he
  obtain ⟨i, rfl⟩ := mem_eventsOf_analyzeSteps he
  simp [analyzeFrameEvent]

/-! ## Claims C1 and C10 -/

/-- C1: whenever metadata resolution returns a duration that is 0, negative
or greater than 60 seconds, the run publishes exactly the initial
fetching-metadata event followed by the terminal error event (with the
invalid-duration message), and `download_video` — the only step that
creates `video.mp4` in the job folder — is never invoked. -/
theorem claim_C1 (fid q : String) (env : Env) (info : VideoInfo)
    (hm : env.metaRes = Except.ok info)
    (hd : info.duration_seconds ≤ 0 ∨ 60 < info.duration_seconds) :
    process_video fid env q
      = [Act.publish fetchingEvent, Act.publish (errEvent invalidDurationMsg)]
    ∧ Act.download ∉ process_video fid env q := by
  have h := pv_of_tryBody_err (tryBody_bad_duration fid q env info hm hd)
  refine ⟨by rw [h]; rfl, ?_⟩
  rw [h]
  simp [preMeta, errAct]

def envBadDur : Env :=
  { metaRes := Except.ok { duration_seconds := 75, title := "t", url := "u" }
  , downloadRes := Except.ok (), fileValid := true, extractRes := Except.ok ()
  , dbDetailsRes := Except.ok (), frameResults := [], buildRes := Except.ok ()
  , unlinkRes := Except.ok () }

/-- C1 witness: a metadata result with duration 75 triggers the
invalid-duration rejection before the download stage. -/
theorem claim_C1_witness :
    process_video "job1" envBadDur "360p"
      = [Act.publish fetchingEvent, Act.publish (errEvent invalidDurationMsg)]
    ∧ Act.download ∉ process_video "job1" envBadDur "360p" :=
  claim_C1 "job1" "360p" envBadDur
    { duration_seconds := 75, title := "t", url := "u" } rfl (by decide)

/-- C10: when the metadata tool's JSON output has no `duration` field,
`get_video_info` defaults the duration to 0 (`data.get('duration', 0)`),
and `process_video` consequently rejects the job with the invalid-duration
terminal error event instead of crashing on the missing field. -/
theorem claim_C10 (u fid q : String) (data : YtJson) (env : Env)
    (hdur : data.duration = none)
    (hm : env.metaRes = Except.ok (get_video_info u data)) :
    (get_video_info u data).duration_seconds = 0
    ∧ process_video fid env q
      = [Act.publish fetchingEvent, Act.publish (errEvent invalidDurationMsg)] := by
  have h0 : (get_video_info u data).duration_seconds = 0 := by
    simp [get_video_info, hdur]
  refine ⟨h0, ?_⟩
  have h := pv_of_tryBody_err
    (tryBody_bad_duration fid q env _ hm (Or.inl (le_of_eq h0)))
  rw [h]
  rfl

def dataNoDuration : YtJson :=
  { duration := none, title := some "short clip", webpage_url := some "https://example.org/w" }

def envNoDuration : Env :=
  { metaRes := Except.ok (get_video_info "https://example.org/w" dataNoDuration)
  , downloadRes := Except.ok (), fileValid := true, extractRes := Except.ok ()
  , dbDetailsRes := Except.ok (), frameResults := [], buildRes := Except.ok ()
  , unlinkRes := Except.ok () }

/-- C10 witness: a concrete metadata JSON without `duration`. -/
theorem claim_C10_witness :
    (get_video_info "https://example.org/w" dataNoDuration).duration_seconds = 0
    ∧ process_video "job2" envNoDuration "360p"
      = [Act.publish fetchingEvent, Act.publish (errEvent invalidDurationMsg)] :=
  claim_C10 "https://example.org/w" "job2" "360p" dataNoDuration envNoDuration rfl rfl

/-! ## Progress arithmetic for claim C7 -/

lemma analyzeFrameEvent_progress_le (total i : Nat) :
    (analyzeFrameEvent total i).progress ≤ 90 :=
  min_le_right _ _

lemma analyzeFrameEvent_progress_ge (total i : Nat) :
    40 ≤ (analyzeFrameEvent total i).progress :=
  le_min (le_trans (by norm_num) (Nat.le_add_right 50 _)) (by norm_num)

lemma analyzeFrameEvent_progress_mono (total : Nat) {i j : Nat} (h : i ≤ j) :
    (analyzeFrameEvent total i).progress ≤ (analyzeFrameEvent total j).progress := by
  have hm : (40 * i) / total ≤ (40 * j) / total :=
    Nat.div_le_div_right (Nat.mul_le_mul_left 40 h)
  exact min_le_min (Nat.add_le_add_left hm 50) le_rfl

lemma events_err_progress (m : String) :
    (eventsOf [errAct m]).map (fun e => e.progress) = [100] := rfl

lemma events_preMeta_progress :
    (eventsOf preMeta).map (fun e => e.progress) = [5] := rfl

lemma events_preDownload_progress (t q : String) :
    (eventsOf (preDownload t q)).map (fun e => e.progress) = [5, 15] := rfl

lemma events_preExtract_progress (t q : String) :
    (eventsOf (preExtract t q)).map (fun e => e.progress) = [5, 15, 35] := rfl

lemma events_preDb_progress (t q : String) :
    (eventsOf (preDb t q)).map (fun e => e.progress) = [5, 15, 35] := rfl

lemma events_preAnalyze_progress (t q : String) (n : Nat) :
    (eventsOf (preAnalyze t q n)).map (fun e => e.progress) = [5, 15, 35, 40] := rfl

lemma sorted_with_err (ps : List Nat) (hs : List.Sorted (· ≤ ·) ps)
    (hle : ∀ x ∈ ps, x ≤ 100) :
    List.Sorted (· ≤ ·) (ps ++ [100]) :=
  List.pairwise_append.mpr ⟨hs, List.sorted_singleton _, fun a ha b hb => by
    simp only [List.mem_singleton] at hb
    subst hb
    exact hle a ha⟩

lemma sorted_loop_events (t idx k : Nat) :
    List.Sorted (· ≤ ·)
      (((List.range k).map (fun j => analyzeFrameEvent t (idx + j))).map
        (fun e => e.progress)) := by
  rw [List.map_map]
  exact (List.pairwise_lt_range k).map _
    (fun a b hab => analyzeFrameEvent_progress_mono t (by omega))

/-- Sortedness of a complete main-branch progress sequence:
`[5, 15, 35, 40]`, then the per-frame ramp, then a sorted tail of values
at least 90. -/
lemma sorted_progress_main (t idx k : Nat) (tailPs : List Nat)
    (htail : List.Sorted (· ≤ ·) tailPs) (htail90 : ∀ x ∈ tailPs, 90 ≤ x) :
    List.Sorted (· ≤ ·)
      (5 :: 15 :: 35 :: 40 ::
        (((List.range k).map (fun j => analyzeFrameEvent t (idx + j))).map
          (fun e => e.progress) ++ tailPs)) := by
  set loopPs := ((List.range k).map (fun j => analyzeFrameEvent t (idx + j))).map
    (fun e => e.progress) with hloopPs
  have hmem : ∀ x ∈ loopPs, 40 ≤ x ∧ x ≤ 90 := by
    intro x hx
    rw [hloopPs] at hx
    simp only [List.mem_map, List.mem_range] at hx
    obtain ⟨e, ⟨j, _, rfl⟩, rfl⟩ := hx
    exact ⟨analyzeFrameEvent_progress_ge _ _, analyzeFrameEvent_progress_le _ _⟩
  have h1 : List.Sorted (· ≤ ·) (loopPs ++ tailPs) :=
    List.pairwise_append.mpr ⟨sorted_loop_events t idx k, htail,
      fun a ha b hb => le_trans (hmem a ha).2 (htail90 b hb)⟩
  have hall40 : ∀ b ∈ loopPs ++ tailPs, 40 ≤ b := by
    intro b hb
    rcases List.mem_append.mp hb with h | h
    · exact (hmem b h).1
    · exact le_trans (by norm_num) (htail90 b h)
  refine List.sorted_cons.mpr ⟨?_, List.sorted_cons.mpr ⟨?_,
    List.sorted_cons.mpr ⟨?_, List.sorted_cons.mpr ⟨hall40, h1⟩⟩⟩⟩
  · intro b hb
    simp only [List.mem_cons] at hb
    rcases hb with rfl | rfl | rfl | hb
    · norm_num
    · norm_num
    · norm_num
    · exact le_trans (by norm_num) (hall40 b hb)
  · intro b hb
    simp only [List.mem_cons] at hb
    rcases hb with rfl | rfl | hb
    · norm_num
    · norm_num
    · exact le_trans (by norm_num) (hall40 b hb)
  · intro b hb
    simp only [List.mem_cons] at hb
    rcases hb with rfl | hb
    · norm_num
    · exact le_trans (by norm_num) (hall40 b hb)

lemma events_tail_build_err (m : String) :
    (eventsOf [Act.publish buildingEvent, Act.buildPage, errAct m]).map
      (fun e => e.progress) = [95, 100] := rfl

lemma events_tail_unlink_err (m : String) :
    (eventsOf [Act.publish buildingEvent, Act.buildPage, Act.unlinkVideo false,
      errAct m]).map (fun e => e.progress) = [95, 100] := rfl

lemma events_tail_success (fid : String) :
    (eventsOf [Act.publish buildingEvent, Act.buildPage, Act.unlinkVideo true,
      Act.publish (completeEvent fid)]).map (fun e => e.progress) = [95, 100] := rfl

/-- C7: in every run of `process_video` — any metadata outcome, any frame
count, any stage failing or none — the sequence of `progress` values in the
published events is non-decreasing up to and including the terminal event. -/
theorem claim_C7 (fid q : String) (env : Env) :
    List.Sorted (· ≤ ·)
      ((eventsOf (process_video fid env q)).map (fun e => e.progress)) := by
  rcases pv_cases fid q env with
      ⟨m, _, h⟩ | ⟨info, _, _, h⟩ | ⟨info, m, _, _, _, h⟩ | ⟨info, _, _, _, _, h⟩ |
      ⟨info, m, _, _, _, _, _, h⟩ | ⟨info, m, _, _, _, _, _, _, h⟩ |
      ⟨info, _, _, _, _, _, _, _, h⟩ | ⟨info, _, _, _, _, _, _, _, hrest⟩
  · rw [h, eventsOf_append, List.map_append, events_preMeta_progress, events_err_progress]
    exact sorted_with_err [5] (by decide) (by decide)
  · rw [h, eventsOf_append, List.map_append, events_preMeta_progress, events_err_progress]
    exact sorted_with_err [5] (by decide) (by decide)
  · rw [h, eventsOf_append, List.map_append, events_preDownload_progress,
        events_err_progress]
    exact sorted_with_err [5, 15] (by decide) (by decide)
  · rw [h, eventsOf_append, List.map_append, events_preDownload_progress,
        events_err_progress]
    exact sorted_with_err [5, 15] (by decide) (by decide)
  · rw [h, eventsOf_append, List.map_append, events_preExtract_progress,
        events_err_progress]
    exact sorted_with_err [5, 15, 35] (by decide) (by decide)
  · rw [h, eventsOf_append, List.map_append, events_preDb_progress, events_err_progress]
    exact sorted_with_err [5, 15, 35] (by decide) (by decide)
  · rw [h, eventsOf_append, List.map_append, events_preDb_progress, events_err_progress]
    exact sorted_with_err [5, 15, 35] (by decide) (by decide)
  · obtain ⟨k, hk, hev⟩ := analyzeSteps_events env.frameResults.length env.frameResults 1
    rcases hrest with ⟨m, ha, h⟩ | ⟨ha, hrest2⟩
    · rw [h, eventsOf_append, eventsOf_append, List.map_append, List.map_append,
          events_preAnalyze_progress, hev, events_err_progress]
      simp only [List.append_assoc, List.cons_append, List.nil_append]
      exact sorted_progress_main _ 1 k [100] (List.sorted_singleton _)
        (by intro x hx; simp only [List.mem_singleton] at hx; omega)
    rcases hrest2 with ⟨m, _, h⟩ | ⟨_, hrest3⟩
    · rw [h, eventsOf_append, eventsOf_append, List.map_append, List.map_append,
          events_preAnalyze_progress, hev, events_tail_build_err]
      simp only [List.append_assoc, List.cons_append, List.nil_append]
      exact sorted_progress_main _ 1 k [95, 100] (by decide)
        (by
          intro x hx
          simp only [List.mem_cons, List.not_mem_nil, or_false] at hx
          rcases hx with rfl | rfl <;> norm_num)
    rcases hrest3 with ⟨m, _, h⟩ | ⟨_, h⟩
    · rw [h, eventsOf_append, eventsOf_append, List.map_append, List.map_append,
          events_preAnalyze_progress, hev, events_tail_unlink_err]
      simp only [List.append_assoc, List.cons_append, List.nil_append]
      exact sorted_progress_main _ 1 k [95, 100] (by decide)
        (by
          intro x hx
          simp only [List.mem_cons, List.not_mem_nil, or_false] at hx
          rcases hx with rfl | rfl <;> norm_num)
    · rw [h, eventsOf_append, eventsOf_append, List.map_append, List.map_append,
          events_preAnalyze_progress, hev, events_tail_success]
      simp only [List.append_assoc, List.cons_append, List.nil_append]
      exact sorted_progress_main _ 1 k [95, 100] (by decide)
        (by
          intro x hx
          simp only [List.mem_cons, List.not_mem_nil, or_false] at hx
          rcases hx with rfl | rfl <;> norm_num)

/-! ## Claim C8 -/

/-- An environment in which every external operation succeeds: metadata
`⟨d, t, u⟩`, a valid downloaded file, one successfully analyzed frame per
name in `names`. -/
def successEnv (d : Int) (t u : String) (names : List String) : Env :=
  { metaRes := Except.ok { duration_seconds := d, title := t, url := u }
  , downloadRes := Except.ok (), fileValid := true
  , extractRes := Except.ok (), dbDetailsRes := Except.ok ()
  , frameResults := names.map (fun nm => (nm, Except.ok ()))
  , buildRes := Except.ok (), unlinkRes := Except.ok () }

/-- C8 (counterexample): on a successful 2-frame run the published progress
checkpoints are `5, 15, 35, 40, 70, 90, 95, 100`.  The first per-frame
value is 70 = `50 + int(40 * 1/2)`, not a point of a linear 40-to-90 ramp
(which at frame 1 of 2 would be `40 + 50 * 1/2 = 65`); the sequence jumps
from 40 straight to 70. -/
theorem claim_C8_counterexample :
    (eventsOf (process_video "f"
        (successEnv 10 "t" "u" ["frame_00.jpg", "frame_01.jpg"]) "360p")).map
      (fun e => e.progress)
      = [5, 15, 35, 40, 70, 90, 95, 100]
    ∧ (70 : Nat) ≠ 40 + 50 * 1 / 2 := by decide

/-- The fully successful branch of `process_video`, as one trace equation. -/
lemma pv_success (fid q : String) (env : Env) (info : VideoInfo)
    (hm : env.metaRes = Except.ok info) (hd : durOk info)
    (hdl : env.downloadRes = Except.ok ()) (hfv : env.fileValid = true)
    (hex : env.extractRes = Except.ok ()) (hdb : env.dbDetailsRes = Except.ok ())
    (hfr : env.frameResults.length ≠ 0)
    (ha : (analyzeSteps env.frameResults.length env.frameResults 1).2 = none)
    (hb : env.buildRes = Except.ok ()) (hu : env.unlinkRes = Except.ok ()) :
    process_video fid env q
      = preAnalyze info.title q env.frameResults.length
        ++ (analyzeSteps env.frameResults.length env.frameResults 1).1
        ++ [Act.publish buildingEvent, Act.buildPage, Act.unlinkVideo true,
            Act.publish (completeEvent fid)] := by
  have ht := tryBody_frames fid q env info hm hd hdl hfv hex hdb hfr
  simp only [ha, hb, hu] at ht
  have h2 := pv_of_tryBody_ok ht
  rw [h2]
  simp

/-- C8 (amended): on every successful run with `n` sampled frames the
published progress values are exactly `5, 15, 35`, then `40` at Analyzing
entry, then the per-frame value `min(50 + (40 * i) / n, 90)` for the i-th
of n frames (computed with `50 + ...`, so the sequence jumps from 40 to
about 53 or more and reaches 90 at the final frame), then `95`, then
`100`. -/
theorem claim_C8 (fid q t u : String) (d : Int) (names : List String)
    (hd1 : 0 < d) (hd2 : d ≤ 60) (hn : names ≠ []) :
    (eventsOf (process_video fid (successEnv d t u names) q)).map (fun e => e.progress)
      = [5, 15, 35, 40]
        ++ (List.range names.length).map
            (fun j => min (50 + (40 * (j + 1)) / names.length) 90)
        ++ [95, 100] := by
  have hlen : (successEnv d t u names).frameResults.length ≠ 0 := by
    simpa [successEnv] using hn
  have ha : (analyzeSteps (successEnv d t u names).frameResults.length
      (successEnv d t u names).frameResults 1).2 = none :=
    (analyzeSteps_ok (successEnv d t u names).frameResults.length names 1).1
  have hev : eventsOf (analyzeSteps (successEnv d t u names).frameResults.length
      (successEnv d t u names).frameResults 1).1
      = (List.range names.length).map
          (fun j => analyzeFrameEvent (successEnv d t u names).frameResults.length
            (1 + j)) :=
    (analyzeSteps_ok (successEnv d t u names).frameResults.length names 1).2
  rw [pv_success fid q (successEnv d t u names)
      { duration_seconds := d, title := t, url := u } rfl ⟨hd1, hd2⟩ rfl rfl rfl rfl
      hlen ha rfl rfl]
  rw [eventsOf_append, eventsOf_append, List.map_append, List.map_append,
      events_preAnalyze_progress, hev, events_tail_success, List.map_map]
  have hl : (successEnv d t u names).frameResults.length = names.length := by
    simp [successEnv]
  have hmid : (List.range names.length).map
        ((fun e => e.progress) ∘ (fun j => analyzeFrameEvent
          (successEnv d t u names).frameResults.length (1 + j)))
      = (List.range names.length).map
          (fun j => min (50 + (40 * (j + 1)) / names.length) 90) := by
    apply List.map_congr_left
    intro j _
    simp only [Function.comp_apply, analyzeFrameEvent, hl, Nat.add_comm 1 j]
  rw [hmid]

/-- C8 witness: the amended per-frame formula evaluated on a successful
2-frame run. -/
theorem claim_C8_witness :
    (eventsOf (process_video "f"
        (successEnv 10 "t" "u" ["frame_00.jpg", "frame_01.jpg"]) "360p")).map
      (fun e => e.progress)
      = [5, 15, 35, 40, 70, 90, 95, 100] := by
  rw [claim_C8 "f" "360p" "t" "u" 10 ["frame_00.jpg", "frame_01.jpg"]
      (by decide) (by decide) (by decide)]
  decide

/-! ## Claim C9 -/

lemma publish_mem_iff {e : Event} {acts : List Act} :
    Act.publish e ∈ acts ↔ e ∈ eventsOf acts := by
  rw [eventsOf, List.mem_filterMap]
  constructor
  · intro h
    exact ⟨Act.publish e, h, rfl⟩
  · rintro ⟨a, ha, hfa⟩
    cases a with
    | publish e2 =>
      simp only [eventOf, Option.some.injEq] at hfa
      subst hfa
      exact ha
    | download => simp [eventOf] at hfa
    | extract => simp [eventOf] at hfa
    | dbInsertDetails => simp [eventOf] at hfa
    | analyzeFrame nm => simp [eventOf] at hfa
    | buildPage => simp [eventOf] at hfa
    | unlinkVideo b => simp [eventOf] at hfa

lemma status_not_complete_preMeta : ∀ e ∈ eventsOf preMeta, e.status ≠ "complete" := by
  intro e he
  rw [eventsOf_preMeta] at he
  simp only [List.mem_singleton] at he
  subst he
  simp [fetchingEvent]

lemma status_not_complete_preDownload {t q : String} :
    ∀ e ∈ eventsOf (preDownload t q), e.status ≠ "complete" := by
  intro e he
  rw [eventsOf_preDownload] at he
  simp only [List.mem_cons, List.not_mem_nil, or_false] at he
  rcases he with rfl | rfl <;> simp [fetchingEvent, downloadingEvent]

lemma status_not_complete_preExtract {t q : String} :
    ∀ e ∈ eventsOf (preExtract t q), e.status ≠ "complete" := by
  intro e he
  rw [eventsOf_preExtract] at he
  simp only [List.mem_cons, List.not_mem_nil, or_false] at he
  rcases he with rfl | rfl | rfl <;> simp [fetchingEvent, downloadingEvent, extractingEvent]

lemma status_not_complete_preDb {t q : String} :
    ∀ e ∈ eventsOf (preDb t q), e.status ≠ "complete" := by
  intro e he
  rw [eventsOf_preDb] at he
  simp only [List.mem_cons, List.not_mem_nil, or_false] at he
  rcases he with rfl | rfl | rfl <;> simp [fetchingEvent, downloadingEvent, extractingEvent]

lemma status_not_complete_preAnalyze {t q : String} {n : Nat} :
    ∀ e ∈ eventsOf (preAnalyze t q n), e.status ≠ "complete" := by
  intro e he
  rw [eventsOf_preAnalyze] at he
  simp only [List.mem_cons, List.not_mem_nil, or_false] at he
  rcases he with rfl | rfl | rfl | rfl <;>
    simp [fetchingEvent, downloadingEvent, extractingEvent, analyzingEntryEvent]

lemma status_not_complete_analyzeSteps {total idx : Nat}
    {l : List (String × Except String Unit)} :
    ∀ e ∈ eventsOf (analyzeSteps total l idx).1, e.status ≠ "complete" := by
  intro e he
  obtain ⟨i, rfl⟩ := mem_eventsOf_analyzeSteps he
  simp [analyzeFrameEvent]

lemma events_err (m : String) : eventsOf [errAct m] = [errEvent m] := rfl

/-- C9: when a run reaches the complete event, the raw media file deletion
(`video.mp4` unlink) happens immediately before publishing it, the event
carries the job id and the result-page path `/v/<id>`; when a run ends in
the error event, no successful deletion of the media file (and no deletion
of any artifact) has occurred — the trace contains no successful unlink. -/
theorem claim_C9 (fid q : String) (env : Env) :
    (∀ e, Act.publish e ∈ process_video fid env q → e.status = "complete" →
        e.video_id = some fid ∧ e.video_url = some ("/v/" ++ fid)
        ∧ ∃ front, process_video fid env q
            = front ++ [Act.unlinkVideo true, Act.publish e])
    ∧ (∀ e, Act.publish e ∈ process_video fid env q → e.status = "error" →
        Act.unlinkVideo true ∉ process_video fid env q) := by
  rcases pv_cases fid q env with
      ⟨m, _, h⟩ | ⟨info, _, _, h⟩ | ⟨info, m, _, _, _, h⟩ | ⟨info, _, _, _, _, h⟩ |
      ⟨info, m, _, _, _, _, _, h⟩ | ⟨info, m, _, _, _, _, _, _, h⟩ |
      ⟨info, _, _, _, _, _, _, _, h⟩ | ⟨info, _, _, _, _, _, _, _, hrest⟩
  · constructor
    · intro e he hs
      rw [publish_mem_iff, h, eventsOf_append, events_err] at he
      rcases List.mem_append.mp he with h1 | h1
      · exact absurd hs (status_not_complete_preMeta e h1)
      · simp only [List.mem_singleton] at h1
        subst h1
        simp [errEvent] at hs
    · intro e _ _ hmem
      rw [h] at hmem
      simp [preMeta, errAct] at hmem
  · constructor
    · intro e he hs
      rw [publish_mem_iff, h, eventsOf_append, events_err] at he
      rcases List.mem_append.mp he with h1 | h1
      · exact absurd hs (status_not_complete_preMeta e h1)
      · simp only [List.mem_singleton] at h1
        subst h1
        simp [errEvent] at hs
    · intro e _ _ hmem
      rw [h] at hmem
      simp [preMeta, errAct] at hmem
  · constructor
    · intro e he hs
      rw [publish_mem_iff, h, eventsOf_append, events_err] at he
      rcases List.mem_append.mp he with h1 | h1
      · exact absurd hs (status_not_complete_preDownload e h1)
      · simp only [List.mem_singleton] at h1
        subst h1
        simp [errEvent] at hs
    · intro e _ _ hmem
      rw [h] at hmem
      simp [preDownload, preMeta, errAct] at hmem
  · constructor
    · intro e he hs
      rw [publish_mem_iff, h, eventsOf_append, events_err] at he
      rcases List.mem_append.mp he with h1 | h1
      · exact absurd hs (status_not_complete_preDownload e h1)
      · simp only [List.mem_singleton] at h1
        subst h1
        simp [errEvent] at hs
    · intro e _ _ hmem
      rw [h] at hmem
      simp [preDownload, preMeta, errAct] at hmem
  · constructor
    · intro e he hs
      rw [publish_mem_iff, h, eventsOf_append, events_err] at he
      rcases List.mem_append.mp he with h1 | h1
      · exact absurd hs (status_not_complete_preExtract e h1)
      · simp only [List.mem_singleton] at h1
        subst h1
        simp [errEvent] at hs
    · intro e _ _ hmem
      rw [h] at hmem
      simp [preExtract, preDownload, preMeta, errAct] at hmem
  · constructor
    · intro e he hs
      rw [publish_mem_iff, h, eventsOf_append, events_err] at he
      rcases List.mem_append.mp he with h1 | h1
      · exact absurd hs (status_not_complete_preDb e h1)
      · simp only [List.mem_singleton] at h1
        subst h1
        simp [errEvent] at hs
    · intro e _ _ hmem
      rw [h] at hmem
      simp [preDb, preExtract, preDownload, preMeta, errAct] at hmem
  · constructor
    · intro e he hs
      rw [publish_mem_iff, h, eventsOf_append, events_err] at he
      rcases List.mem_append.mp he with h1 | h1
      · exact absurd hs (status_not_complete_preDb e h1)
      · simp only [List.mem_singleton] at h1
        subst h1
        simp [errEvent] at hs
    · intro e _ _ hmem
      rw [h] at hmem
      simp [preDb, preExtract, preDownload, preMeta, errAct] at hmem
  · rcases hrest with ⟨m, _, h⟩ | ⟨_, hrest2⟩
    · constructor
      · intro e he hs
        rw [publish_mem_iff, h, eventsOf_append, eventsOf_append, events_err] at he
        rcases List.mem_append.mp he with h1 | h1
        · rcases List.mem_append.mp h1 with h2 | h2
          · exact absurd hs (status_not_complete_preAnalyze e h2)
          · exact absurd hs (status_not_complete_analyzeSteps e h2)
        · simp only [List.mem_singleton] at h1
          subst h1
          simp [errEvent] at hs
      · intro e _ _ hmem
        rw [h] at hmem
        rcases List.mem_append.mp hmem with h1 | h1
        · rcases List.mem_append.mp h1 with h2 | h2
          · simp [preAnalyze, preDb, preExtract, preDownload, preMeta] at h2
          · exact unlink_not_mem_analyzeSteps h2
        · simp [errAct] at h1
    rcases hrest2 with ⟨m, _, h⟩ | ⟨_, hrest3⟩
    · constructor
      · intro e he hs
        rw [publish_mem_iff, h, eventsOf_append, eventsOf_append] at he
        rcases List.mem_append.mp he with h1 | h1
        · rcases List.mem_append.mp h1 with h2 | h2
          · exact absurd hs (status_not_complete_preAnalyze e h2)
          · exact absurd hs (status_not_complete_analyzeSteps e h2)
        · have he2 : e ∈ [buildingEvent, errEvent m] := h1
          simp only [List.mem_cons, List.not_mem_nil, or_false] at he2
          rcases he2 with rfl | rfl
          · simp [buildingEvent] at hs
          · simp [errEvent] at hs
      · intro e _ _ hmem
        rw [h] at hmem
        rcases List.mem_append.mp hmem with h1 | h1
        · rcases List.mem_append.mp h1 with h2 | h2
          · simp [preAnalyze, preDb, preExtract, preDownload, preMeta] at h2
          · exact unlink_not_mem_analyzeSteps h2
        · simp [errAct] at h1
    rcases hrest3 with ⟨m, _, h⟩ | ⟨_, h⟩
    · constructor
      · intro e he hs
        rw [publish_mem_iff, h, eventsOf_append, eventsOf_append] at he
        rcases List.mem_append.mp he with h1 | h1
        · rcases List.mem_append.mp h1 with h2 | h2
          · exact absurd hs (status_not_complete_preAnalyze e h2)
          · exact absurd hs (status_not_complete_analyzeSteps e h2)
        · have he2 : e ∈ [buildingEvent, errEvent m] := h1
          simp only [List.mem_cons, List.not_mem_nil, or_false] at he2
          rcases he2 with rfl | rfl
          · simp [buildingEvent] at hs
          · simp [errEvent] at hs
      · intro e _ _ hmem
        rw [h] at hmem
        rcases List.mem_append.mp hmem with h1 | h1
        · rcases List.mem_append.mp h1 with h2 | h2
          · simp [preAnalyze, preDb, preExtract, preDownload, preMeta] at h2
          · exact unlink_not_mem_analyzeSteps h2
        · simp [errAct] at h1
    · constructor
      · intro e he hs
        rw [publish_mem_iff, h, eventsOf_append, eventsOf_append] at he
        rcases List.mem_append.mp he with h1 | h1
        · rcases List.mem_append.mp h1 with h2 | h2
          · exact absurd hs (status_not_complete_preAnalyze e h2)
          · exact absurd hs (status_not_complete_analyzeSteps e h2)
        · have he2 : e ∈ [buildingEvent, completeEvent fid] := h1
          simp only [List.mem_cons, List.not_mem_nil, or_false] at he2
          rcases he2 with rfl | rfl
          · simp [buildingEvent] at hs
          · exact ⟨rfl, rfl,
              (preAnalyze info.title q env.frameResults.length
                ++ (analyzeSteps env.frameResults.length env.frameResults 1).1)
                ++ [Act.publish buildingEvent, Act.buildPage],
              by rw [h]; simp⟩
      · intro e he hs
        exfalso
        rw [publish_mem_iff, h, eventsOf_append, eventsOf_append] at he
        rcases List.mem_append.mp he with h1 | h1
        · rcases List.mem_append.mp h1 with h2 | h2
          · exact status_not_error_preAnalyze e h2 hs
          · exact status_not_error_analyzeSteps e h2 hs
        · have he2 : e ∈ [buildingEvent, completeEvent fid] := h1
          simp only [List.mem_cons, List.not_mem_nil, or_false] at he2
          rcases he2 with rfl | rfl
          · simp [buildingEvent] at hs
          · simp [completeEvent] at hs

def envSuccessOne : Env := successEnv 10 "t" "u" ["frame_00.jpg"]

/-- C9 witness: on a concrete successful run the complete event carries the
job id and page path, and is immediately preceded by the successful media
deletion. -/
theorem claim_C9_witness :
    (completeEvent "j").video_id = some "j"
    ∧ (completeEvent "j").video_url = some ("/v/" ++ "j")
    ∧ ∃ front, process_video "j" envSuccessOne "360p"
        = front ++ [Act.unlinkVideo true, Act.publish (completeEvent "j")] :=
  (claim_C9 "j" "360p" envSuccessOne).1 (completeEvent "j") (by decide) rfl

/-! ## Claim C2 -/

lemma countP_error_eq_zero {evs : List Event} (h : ∀ e ∈ evs, e.status ≠ "error") :
    evs.countP (fun e => e.status == "error") = 0 := by
  rw [List.countP_eq_zero]
  intro e he
  simpa using h e he

lemma getLast?_append_pair {α : Type} (l : List α) (a b : α) :
    (l ++ [a, b]).getLast? = some b := by
  have h : l ++ [a, b] = (l ++ [a]) ++ [b] := by simp
  rw [h]
  exact getLast?_append_single _ _

/-- At most one error event is ever published (C2, uniqueness). -/
lemma error_count_le_one (fid q : String) (env : Env) :
    (eventsOf (process_video fid env q)).countP (fun e => e.status == "error") ≤ 1 := by
  rcases pv_cases fid q env with
      ⟨m, _, h⟩ | ⟨info, _, _, h⟩ | ⟨info, m, _, _, _, h⟩ | ⟨info, _, _, _, _, h⟩ |
      ⟨info, m, _, _, _, _, _, h⟩ | ⟨info, m, _, _, _, _, _, _, h⟩ |
      ⟨info, _, _, _, _, _, _, _, h⟩ | ⟨info, _, _, _, _, _, _, _, hrest⟩
  · rw [h, eventsOf_append, List.countP_append,
        countP_error_eq_zero status_not_error_preMeta]
    simp [events_err, errEvent]
  · rw [h, eventsOf_append, List.countP_append,
        countP_error_eq_zero status_not_error_preMeta]
    simp [events_err, errEvent]
  · rw [h, eventsOf_append, List.countP_append,
        countP_error_eq_zero status_not_error_preDownload]
    simp [events_err, errEvent]
  · rw [h, eventsOf_append, List.countP_append,
        countP_error_eq_zero status_not_error_preDownload]
    simp [events_err, errEvent]
  · rw [h, eventsOf_append, List.countP_append,
        countP_error_eq_zero status_not_error_preExtract]
    simp [events_err, errEvent]
  · rw [h, eventsOf_append, List.countP_append,
        countP_error_eq_zero status_not_error_preDb]
    simp [events_err, errEvent]
  · rw [h, eventsOf_append, List.countP_append,
        countP_error_eq_zero status_not_error_preDb]
    simp [events_err, errEvent]
  · have hz : (eventsOf (preAnalyze info.title q env.frameResults.length
        ++ (analyzeSteps env.frameResults.length env.frameResults 1).1)).countP
          (fun e => e.status == "error") = 0 := by
      rw [eventsOf_append, List.countP_append,
          countP_error_eq_zero status_not_error_preAnalyze,
          countP_error_eq_zero status_not_error_analyzeSteps]
    rcases hrest with ⟨m, _, h⟩ | ⟨_, ⟨m, _, h⟩ | ⟨_, ⟨m, _, h⟩ | ⟨_, h⟩⟩⟩
    · rw [h, eventsOf_append, List.countP_append, hz]
      simp [events_err, errEvent]
    · rw [h, eventsOf_append, List.countP_append, hz]
      simp [eventsOf, eventOf, errAct, buildingEvent, errEvent]
    · rw [h, eventsOf_append, List.countP_append, hz]
      simp [eventsOf, eventOf, errAct, buildingEvent, errEvent]
    · rw [h, eventsOf_append, List.countP_append, hz]
      simp [eventsOf, eventOf, errAct, buildingEvent, completeEvent]

lemma events_tail_build (m : String) :
    eventsOf [Act.publish buildingEvent, Act.buildPage, errAct m]
      = [buildingEvent, errEvent m] := rfl

lemma events_tail_unlink (m : String) :
    eventsOf [Act.publish buildingEvent, Act.buildPage, Act.unlinkVideo false, errAct m]
      = [buildingEvent, errEvent m] := rfl

lemma events_tail_complete (fid : String) :
    eventsOf [Act.publish buildingEvent, Act.buildPage, Act.unlinkVideo true,
      Act.publish (completeEvent fid)] = [buildingEvent, completeEvent fid] := rfl

/-- Every published error event has progress 100, is the final published
event of the run, and coexists with no successful media deletion in the
trace (C2: single terminal conversion, no rollback of artifacts). -/
lemma error_event_terminal (fid q : String) (env : Env) :
    ∀ e ∈ eventsOf (process_video fid env q), e.status = "error" →
      e.progress = 100
      ∧ (eventsOf (process_video fid env q)).getLast? = some e
      ∧ Act.unlinkVideo true ∉ process_video fid env q := by
  rcases pv_cases fid q env with
      ⟨m, _, h⟩ | ⟨info, _, _, h⟩ | ⟨info, m, _, _, _, h⟩ | ⟨info, _, _, _, _, h⟩ |
      ⟨info, m, _, _, _, _, _, h⟩ | ⟨info, m, _, _, _, _, _, _, h⟩ |
      ⟨info, _, _, _, _, _, _, _, h⟩ | ⟨info, _, _, _, _, _, _, _, hrest⟩
  · intro e he hs
    rw [h] at he ⊢
    rw [eventsOf_append, events_err] at he
    rcases List.mem_append.mp he with h1 | h1
    · exact absurd hs (status_not_error_preMeta e h1)
    · simp only [List.mem_singleton] at h1
      subst h1
      refine ⟨rfl, ?_, ?_⟩
      · rw [eventsOf_append, events_err]
        exact getLast?_append_single _ _
      · simp [preMeta, errAct]
  · intro e he hs
    rw [h] at he ⊢
    rw [eventsOf_append, events_err] at he
    rcases List.mem_append.mp he with h1 | h1
    · exact absurd hs (status_not_error_preMeta e h1)
    · simp only [List.mem_singleton] at h1
      subst h1
      refine ⟨rfl, ?_, ?_⟩
      · rw [eventsOf_append, events_err]
        exact getLast?_append_single _ _
      · simp [preMeta, errAct]
  · intro e he hs
    rw [h] at he ⊢
    rw [eventsOf_append, events_err] at he
    rcases List.mem_append.mp he with h1 | h1
    · exact absurd hs (status_not_error_preDownload e h1)
    · simp only [List.mem_singleton] at h1
      subst h1
      refine ⟨rfl, ?_, ?_⟩
      · rw [eventsOf_append, events_err]
        exact getLast?_append_single _ _
      · simp [preDownload, preMeta, errAct]
  · intro e he hs
    rw [h] at he ⊢
    rw [eventsOf_append, events_err] at he
    rcases List.mem_append.mp he with h1 | h1
    · exact absurd hs (status_not_error_preDownload e h1)
    · simp only [List.mem_singleton] at h1
      subst h1
      refine ⟨rfl, ?_, ?_⟩
      · rw [eventsOf_append, events_err]
        exact getLast?_append_single _ _
      · simp [preDownload, preMeta, errAct]
  · intro e he hs
    rw [h] at he ⊢
    rw [eventsOf_append, events_err] at he
    rcases List.mem_append.mp he with h1 | h1
    · exact absurd hs (status_not_error_preExtract e h1)
    · simp only [List.mem_singleton] at h1
      subst h1
      refine ⟨rfl, ?_, ?_⟩
      · rw [eventsOf_append, events_err]
        exact getLast?_append_single _ _
      · simp [preExtract, preDownload, preMeta, errAct]
  · intro e he hs
    rw [h] at he ⊢
    rw [eventsOf_append, events_err] at he
    rcases List.mem_append.mp he with h1 | h1
    · exact absurd hs (status_not_error_preDb e h1)
    · simp only [List.mem_singleton] at h1
      subst h1
      refine ⟨rfl, ?_, ?_⟩
      · rw [eventsOf_append, events_err]
        exact getLast?_append_single _ _
      · simp [preDb, preExtract, preDownload, preMeta, errAct]
  · intro e he hs
    rw [h] at he ⊢
    rw [eventsOf_append, events_err] at he
    rcases List.mem_append.mp he with h1 | h1
    · exact absurd hs (status_not_error_preDb e h1)
    · simp only [List.mem_singleton] at h1
      subst h1
      refine ⟨rfl, ?_, ?_⟩
      · rw [eventsOf_append, events_err]
        exact getLast?_append_single _ _
      · simp [preDb, preExtract, preDownload, preMeta, errAct]
  · rcases hrest with ⟨m, _, h⟩ | ⟨_, ⟨m, _, h⟩ | ⟨_, ⟨m, _, h⟩ | ⟨_, h⟩⟩⟩
    · intro e he hs
      rw [h] at he ⊢
      rw [eventsOf_append, eventsOf_append, events_err] at he
      rcases List.mem_append.mp he with h1 | h1
      · rcases List.mem_append.mp h1 with h2 | h2
        · exact absurd hs (status_not_error_preAnalyze e h2)
        · exact absurd hs (status_not_error_analyzeSteps e h2)
      · simp only [List.mem_singleton] at h1
        subst h1
        refine ⟨rfl, ?_, ?_⟩
        · rw [eventsOf_append, eventsOf_append, events_err]
          exact getLast?_append_single _ _
        · intro hmem
          rcases List.mem_append.mp hmem with h1 | h1
          · rcases List.mem_append.mp h1 with h2 | h2
            · simp [preAnalyze, preDb, preExtract, preDownload, preMeta] at h2
            · exact unlink_not_mem_analyzeSteps h2
          · simp [errAct] at h1
    · intro e he hs
      rw [h] at he ⊢
      rw [eventsOf_append, eventsOf_append, events_tail_build] at he
      rcases List.mem_append.mp he with h1 | h1
      · rcases List.mem_append.mp h1 with h2 | h2
        · exact absurd hs (status_not_error_preAnalyze e h2)
        · exact absurd hs (status_not_error_analyzeSteps e h2)
      · simp only [List.mem_cons, List.not_mem_nil, or_false] at h1
        rcases h1 with rfl | rfl
        · simp [buildingEvent] at hs
        · refine ⟨rfl, ?_, ?_⟩
          · rw [eventsOf_append, eventsOf_append, events_tail_build]
            exact getLast?_append_pair _ _ _
          · intro hmem
            rcases List.mem_append.mp hmem with h1 | h1
            · rcases List.mem_append.mp h1 with h2 | h2
              · simp [preAnalyze, preDb, preExtract, preDownload, preMeta] at h2
              · exact unlink_not_mem_analyzeSteps h2
            · simp [errAct] at h1
    · intro e he hs
      rw [h] at he ⊢
      rw [eventsOf_append, eventsOf_append, events_tail_unlink] at he
      rcases List.mem_append.mp he with h1 | h1
      · rcases List.mem_append.mp h1 with h2 | h2
        · exact absurd hs (status_not_error_preAnalyze e h2)
        · exact absurd hs (status_not_error_analyzeSteps e h2)
      · simp only [List.mem_cons, List.not_mem_nil, or_false] at h1
        rcases h1 with rfl | rfl
        · simp [buildingEvent] at hs
        · refine ⟨rfl, ?_, ?_⟩
          · rw [eventsOf_append, eventsOf_append, events_tail_unlink]
            exact getLast?_append_pair _ _ _
          · intro hmem
            rcases List.mem_append.mp hmem with h1 | h1
            · rcases List.mem_append.mp h1 with h2 | h2
              · simp [preAnalyze, preDb, preExtract, preDownload, preMeta] at h2
              · exact unlink_not_mem_analyzeSteps h2
            · simp [errAct] at h1
    · intro e he hs
      rw [h] at he
      rw [eventsOf_append, eventsOf_append, events_tail_complete] at he
      exfalso
      rcases List.mem_append.mp he with h1 | h1
      · rcases List.mem_append.mp h1 with h2 | h2
        · exact status_not_error_preAnalyze e h2 hs
        · exact status_not_error_analyzeSteps e h2 hs
      · simp only [List.mem_cons, List.not_mem_nil, or_false] at h1
        rcases h1 with rfl | rfl
        · simp [buildingEvent] at hs
        · simp [completeEvent] at hs

/-- No stage invocation appears twice in any trace (C2: no retry). -/
lemma stage_acts_once (fid q : String) (env : Env) :
    (process_video fid env q).count Act.download ≤ 1
    ∧ (process_video fid env q).count Act.extract ≤ 1
    ∧ (process_video fid env q).count Act.buildPage ≤ 1 := by
  have hcd : (analyzeSteps env.frameResults.length env.frameResults 1).1.count
      Act.download = 0 := List.count_eq_zero_of_not_mem download_not_mem_analyzeSteps
  have hce : (analyzeSteps env.frameResults.length env.frameResults 1).1.count
      Act.extract = 0 := List.count_eq_zero_of_not_mem extract_not_mem_analyzeSteps
  have hcb : (analyzeSteps env.frameResults.length env.frameResults 1).1.count
      Act.buildPage = 0 := List.count_eq_zero_of_not_mem buildPage_not_mem_analyzeSteps
  rcases pv_cases fid q env with
      ⟨m, _, h⟩ | ⟨info, _, _, h⟩ | ⟨info, m, _, _, _, h⟩ | ⟨info, _, _, _, _, h⟩ |
      ⟨info, m, _, _, _, _, _, h⟩ | ⟨info, m, _, _, _, _, _, _, h⟩ |
      ⟨info, _, _, _, _, _, _, _, h⟩ | ⟨info, _, _, _, _, _, _, _, hrest⟩
  · rw [h]
    refine ⟨?_, ?_, ?_⟩ <;>
      simp [List.count_append, preMeta, errAct, List.count_cons, List.count_nil]
  · rw [h]
    refine ⟨?_, ?_, ?_⟩ <;>
      simp [List.count_append, preMeta, errAct, List.count_cons, List.count_nil]
  · rw [h]
    refine ⟨?_, ?_, ?_⟩ <;>
      simp [List.count_append, preDownload, preMeta, errAct, List.count_cons,
        List.count_nil]
  · rw [h]
    refine ⟨?_, ?_, ?_⟩ <;>
      simp [List.count_append, preDownload, preMeta, errAct, List.count_cons,
        List.count_nil]
  · rw [h]
    refine ⟨?_, ?_, ?_⟩ <;>
      simp [List.count_append, preExtract, preDownload, preMeta, errAct,
        List.count_cons, List.count_nil]
  · rw [h]
    refine ⟨?_, ?_, ?_⟩ <;>
      simp [List.count_append, preDb, preExtract, preDownload, preMeta, errAct,
        List.count_cons, List.count_nil]
  · rw [h]
    refine ⟨?_, ?_, ?_⟩ <;>
      simp [List.count_append, preDb, preExtract, preDownload, preMeta, errAct,
        List.count_cons, List.count_nil]
  · rcases hrest with ⟨m, _, h⟩ | ⟨_, ⟨m, _, h⟩ | ⟨_, ⟨m, _, h⟩ | ⟨_, h⟩⟩⟩ <;>
      rw [h] <;> refine ⟨?_, ?_, ?_⟩ <;>
      simp [List.count_append, preAnalyze, preDb, preExtract, preDownload, preMeta,
        errAct, List.count_cons, List.count_nil, hcd, hce, hcb]

/-- A metadata exception becomes the terminal error event (C2). -/
lemma meta_err_last (fid q m : String) (env : Env)
    (hm : env.metaRes = Except.error m) :
    (eventsOf (process_video fid env q)).getLast? = some (errEvent m) := by
  rw [pv_of_tryBody_err (tryBody_meta_err fid q m env hm), eventsOf_append, events_err]
  exact getLast?_append_single _ _

/-- A download exception (in a run that invoked the download) becomes the
terminal error event (C2). -/
lemma download_err_last (fid q m : String) (env : Env)
    (hmem : Act.download ∈ process_video fid env q)
    (hdl : env.downloadRes = Except.error m) :
    (eventsOf (process_video fid env q)).getLast? = some (errEvent m) := by
  rcases pv_cases fid q env with
      ⟨m2, _, h⟩ | ⟨info, _, _, h⟩ | ⟨info, m2, _, _, hdl2, h⟩ | ⟨info, _, _, hdl2, _, h⟩ |
      ⟨info, m2, _, _, hdl2, _, _, h⟩ | ⟨info, m2, _, _, hdl2, _, _, _, h⟩ |
      ⟨info, _, _, hdl2, _, _, _, _, h⟩ | ⟨info, _, _, hdl2, _, _, _, _, hrest⟩
  · rw [h] at hmem
    simp [preMeta, errAct] at hmem
  · rw [h] at hmem
    simp [preMeta, errAct] at hmem
  · rw [hdl2] at hdl
    injection hdl with h2
    subst h2
    rw [h, eventsOf_append, events_err]
    exact getLast?_append_single _ _
  · rw [hdl2] at hdl
    exact Except.noConfusion hdl
  · rw [hdl2] at hdl
    exact Except.noConfusion hdl
  · rw [hdl2] at hdl
    exact Except.noConfusion hdl
  · rw [hdl2] at hdl
    exact Except.noConfusion hdl
  · rw [hdl2] at hdl
    exact Except.noConfusion hdl

/-- A frame-extraction exception (in a run that invoked ffmpeg) becomes the
terminal error event (C2). -/
lemma extract_err_last (fid q m : String) (env : Env)
    (hmem : Act.extract ∈ process_video fid env q)
    (hex : env.extractRes = Except.error m) :
    (eventsOf (process_video fid env q)).getLast? = some (errEvent m) := by
  rcases pv_cases fid q env with
      ⟨m2, _, h⟩ | ⟨info, _, _, h⟩ | ⟨info, m2, _, _, _, h⟩ | ⟨info, _, _, _, _, h⟩ |
      ⟨info, m2, _, _, _, _, hex2, h⟩ | ⟨info, m2, _, _, _, _, hex2, _, h⟩ |
      ⟨info, _, _, _, _, hex2, _, _, h⟩ | ⟨info, _, _, _, _, hex2, _, _, hrest⟩
  · rw [h] at hmem
    simp [preMeta, errAct] at hmem
  · rw [h] at hmem
    simp [preMeta, errAct] at hmem
  · rw [h] at hmem
    simp [preDownload, preMeta, errAct] at hmem
  · rw [h] at hmem
    simp [preDownload, preMeta, errAct] at hmem
  · rw [hex2] at hex
    injection hex with h2
    subst h2
    rw [h, eventsOf_append, events_err]
    exact getLast?_append_single _ _
  · rw [hex2] at hex
    exact Except.noConfusion hex
  · rw [hex2] at hex
    exact Except.noConfusion hex
  · rw [hex2] at hex
    exact Except.noConfusion hex

/-- A page-render exception (in a run that invoked `build_page`) becomes
the terminal error event (C2). -/
lemma build_err_last (fid q m : String) (env : Env)
    (hmem : Act.buildPage ∈ process_video fid env q)
    (hb : env.buildRes = Except.error m) :
    (eventsOf (process_video fid env q)).getLast? = some (errEvent m) := by
  rcases pv_cases fid q env with
      ⟨m2, _, h⟩ | ⟨info, _, _, h⟩ | ⟨info, m2, _, _, _, h⟩ | ⟨info, _, _, _, _, h⟩ |
      ⟨info, m2, _, _, _, _, _, h⟩ | ⟨info, m2, _, _, _, _, _, _, h⟩ |
      ⟨info, _, _, _, _, _, _, _, h⟩ | ⟨info, _, _, _, _, _, _, _, hrest⟩
  · rw [h] at hmem
    simp [preMeta, errAct] at hmem
  · rw [h] at hmem
    simp [preMeta, errAct] at hmem
  · rw [h] at hmem
    simp [preDownload, preMeta, errAct] at hmem
  · rw [h] at hmem
    simp [preDownload, preMeta, errAct] at hmem
  · rw [h] at hmem
    simp [preExtract, preDownload, preMeta, errAct] at hmem
  · rw [h] at hmem
    simp [preDb, preExtract, preDownload, preMeta, errAct] at hmem
  · rw [h] at hmem
    simp [preDb, preExtract, preDownload, preMeta, errAct] at hmem
  · rcases hrest with ⟨m2, _, h⟩ | ⟨_, ⟨m2, hb2, h⟩ | ⟨hb2, ⟨m2, _, h⟩ | ⟨_, h⟩⟩⟩
    · exfalso
      rw [h] at hmem
      rcases List.mem_append.mp hmem with h1 | h1
      · rcases List.mem_append.mp h1 with h2 | h2
        · simp [preAnalyze, preDb, preExtract, preDownload, preMeta] at h2
        · exact buildPage_not_mem_analyzeSteps h2
      · simp [errAct] at h1
    · rw [hb2] at hb
      injection hb with h2
      subst h2
      rw [h, eventsOf_append, eventsOf_append, events_tail_build]
      exact getLast?_append_pair _ _ _
    · rw [hb2] at hb
      exact Except.noConfusion hb
    · rw [hb2] at hb
      exact Except.noConfusion hb

/-- A details-store insert exception (in a run that invoked the insert)
becomes the terminal error event (C2). -/
lemma db_err_last (fid q m : String) (env : Env)
    (hmem : Act.dbInsertDetails ∈ process_video fid env q)
    (hdb : env.dbDetailsRes = Except.error m) :
    (eventsOf (process_video fid env q)).getLast? = some (errEvent m) := by
  rcases pv_cases fid q env with
      ⟨m2, _, h⟩ | ⟨info, _, _, h⟩ | ⟨info, m2, _, _, _, h⟩ | ⟨info, _, _, _, _, h⟩ |
      ⟨info, m2, _, _, _, _, _, h⟩ | ⟨info, m2, _, _, _, _, _, hdb2, h⟩ |
      ⟨info, _, _, _, _, _, hdb2, _, h⟩ | ⟨info, _, _, _, _, _, hdb2, _, hrest⟩
  · rw [h] at hmem
    simp [preMeta, errAct] at hmem
  · rw [h] at hmem
    simp [preMeta, errAct] at hmem
  · rw [h] at hmem
    simp [preDownload, preMeta, errAct] at hmem
  · rw [h] at hmem
    simp [preDownload, preMeta, errAct] at hmem
  · rw [h] at hmem
    simp [preExtract, preDownload, preMeta, errAct] at hmem
  · rw [hdb2] at hdb
    injection hdb with h2
    subst h2
    rw [h, eventsOf_append, events_err]
    exact getLast?_append_single _ _
  · rw [hdb2] at hdb
    exact Except.noConfusion hdb
  · rw [hdb2] at hdb
    exact Except.noConfusion hdb

/-- A per-frame analysis (or frame-record insert) exception — the first one
the loop reaches, in a run that entered the Analyzing stage — becomes the
terminal error event (C2). -/
lemma analysis_err_last (fid q m : String) (env : Env)
    (hmem : Act.publish (analyzingEntryEvent env.frameResults.length)
      ∈ process_video fid env q)
    (ha : (analyzeSteps env.frameResults.length env.frameResults 1).2 = some m) :
    (eventsOf (process_video fid env q)).getLast? = some (errEvent m) := by
  rcases pv_cases fid q env with
      ⟨m2, _, h⟩ | ⟨info, _, _, h⟩ | ⟨info, m2, _, _, _, h⟩ | ⟨info, _, _, _, _, h⟩ |
      ⟨info, m2, _, _, _, _, _, h⟩ | ⟨info, m2, _, _, _, _, _, _, h⟩ |
      ⟨info, _, _, _, _, _, _, _, h⟩ | ⟨info, _, _, _, _, _, _, _, hrest⟩
  · rw [h] at hmem
    simp [preMeta, errAct, analyzingEntryEvent, fetchingEvent, errEvent] at hmem
  · rw [h] at hmem
    simp [preMeta, errAct, analyzingEntryEvent, fetchingEvent, errEvent] at hmem
  · rw [h] at hmem
    simp [preDownload, preMeta, errAct, analyzingEntryEvent, fetchingEvent,
      downloadingEvent, errEvent] at hmem
  · rw [h] at hmem
    simp [preDownload, preMeta, errAct, analyzingEntryEvent, fetchingEvent,
      downloadingEvent, errEvent] at hmem
  · rw [h] at hmem
    simp [preExtract, preDownload, preMeta, errAct, analyzingEntryEvent,
      fetchingEvent, downloadingEvent, extractingEvent, errEvent] at hmem
  · rw [h] at hmem
    simp [preDb, preExtract, preDownload, preMeta, errAct, analyzingEntryEvent,
      fetchingEvent, downloadingEvent, extractingEvent, errEvent] at hmem
  · rw [h] at hmem
    simp [preDb, preExtract, preDownload, preMeta, errAct, analyzingEntryEvent,
      fetchingEvent, downloadingEvent, extractingEvent, errEvent] at hmem
  · rcases hrest with ⟨m2, ha2, h⟩ | ⟨ha2, _⟩
    · have h3 : some m2 = some m := ha2.symm.trans ha
      injection h3 with h4
      subst h4
      rw [h, eventsOf_append, events_err]
      exact getLast?_append_single _ _
    · exact Option.noConfusion (ha2.symm.trans ha)

/-- A media-file deletion exception (in a run that attempted the unlink)
becomes the terminal error event (C2). -/
lemma unlink_err_last (fid q m : String) (b : Bool) (env : Env)
    (hmem : Act.unlinkVideo b ∈ process_video fid env q)
    (hu : env.unlinkRes = Except.error m) :
    (eventsOf (process_video fid env q)).getLast? = some (errEvent m) := by
  rcases pv_cases fid q env with
      ⟨m2, _, h⟩ | ⟨info, _, _, h⟩ | ⟨info, m2, _, _, _, h⟩ | ⟨info, _, _, _, _, h⟩ |
      ⟨info, m2, _, _, _, _, _, h⟩ | ⟨info, m2, _, _, _, _, _, _, h⟩ |
      ⟨info, _, _, _, _, _, _, _, h⟩ | ⟨info, _, _, _, _, _, _, _, hrest⟩
  · rw [h] at hmem
    simp [preMeta, errAct] at hmem
  · rw [h] at hmem
    simp [preMeta, errAct] at hmem
  · rw [h] at hmem
    simp [preDownload, preMeta, errAct] at hmem
  · rw [h] at hmem
    simp [preDownload, preMeta, errAct] at hmem
  · rw [h] at hmem
    simp [preExtract, preDownload, preMeta, errAct] at hmem
  · rw [h] at hmem
    simp [preDb, preExtract, preDownload, preMeta, errAct] at hmem
  · rw [h] at hmem
    simp [preDb, preExtract, preDownload, preMeta, errAct] at hmem
  · rcases hrest with ⟨m2, _, h⟩ | ⟨_, ⟨m2, _, h⟩ | ⟨_, ⟨m2, hu2, h⟩ | ⟨hu2, h⟩⟩⟩
    · exfalso
      rw [h] at hmem
      rcases List.mem_append.mp hmem with h1 | h1
      · rcases List.mem_append.mp h1 with h2 | h2
        · simp [preAnalyze, preDb, preExtract, preDownload, preMeta] at h2
        · exact unlink_not_mem_analyzeSteps h2
      · simp [errAct] at h1
    · exfalso
      rw [h] at hmem
      rcases List.mem_append.mp hmem with h1 | h1
      · rcases List.mem_append.mp h1 with h2 | h2
        · simp [preAnalyze, preDb, preExtract, preDownload, preMeta] at h2
        · exact unlink_not_mem_analyzeSteps h2
      · simp [errAct] at h1
    · rw [hu2] at hu
      injection hu with h2
      subst h2
      rw [h, eventsOf_append, eventsOf_append, events_tail_unlink]
      exact getLast?_append_pair _ _ _
    · rw [hu2] at hu
      exact Except.noConfusion hu

/-- C2: every exception raised inside any stage of `process_video` —
metadata fetch, download, frame extraction, details-store insert, per-frame
analysis/insert, page build, or media-file deletion — is caught exactly
once at the top level and converted into exactly one terminal error event
carrying the exception's text and progress 100 as the last published event;
no stage is invoked twice (no retry) and no already-written artifact is
deleted on the error path (no rollback); `process_video` itself never
re-raises — in the embedding it is a total function on every environment. -/
theorem claim_C2 (fid q : String) (env : Env) :
    ((eventsOf (process_video fid env q)).countP (fun e => e.status == "error") ≤ 1)
    ∧ (∀ e ∈ eventsOf (process_video fid env q), e.status = "error" →
        e.progress = 100
        ∧ (eventsOf (process_video fid env q)).getLast? = some e
        ∧ Act.unlinkVideo true ∉ process_video fid env q)
    ∧ (process_video fid env q).count Act.download ≤ 1
    ∧ (process_video fid env q).count Act.extract ≤ 1
    ∧ (process_video fid env q).count Act.buildPage ≤ 1
    ∧ (∀ m, env.metaRes = Except.error m →
        (eventsOf (process_video fid env q)).getLast? = some (errEvent m))
    ∧ (∀ m, Act.download ∈ process_video fid env q →
        env.downloadRes = Except.error m →
        (eventsOf (process_video fid env q)).getLast? = some (errEvent m))
    ∧ (∀ m, Act.extract ∈ process_video fid env q →
        env.extractRes = Except.error m →
        (eventsOf (process_video fid env q)).getLast? = some (errEvent m))
    ∧ (∀ m, Act.buildPage ∈ process_video fid env q →
        env.buildRes = Except.error m →
        (eventsOf (process_video fid env q)).getLast? = some (errEvent m))
    ∧ (∀ m, Act.dbInsertDetails ∈ process_video fid env q →
        env.dbDetailsRes = Except.error m →
        (eventsOf (process_video fid env q)).getLast? = some (errEvent m))
    ∧ (∀ m, Act.publish (analyzingEntryEvent env.frameResults.length)
          ∈ process_video fid env q →
        (analyzeSteps env.frameResults.length env.frameResults 1).2 = some m →
        (eventsOf (process_video fid env q)).getLast? = some (errEvent m))
    ∧ (∀ m b, Act.unlinkVideo b ∈ process_video fid env q →
        env.unlinkRes = Except.error m →
        (eventsOf (process_video fid env q)).getLast? = some (errEvent m)) :=
  ⟨error_count_le_one fid q env,
   error_event_terminal fid q env,
   (stage_acts_once fid q env).1,
   (stage_acts_once fid q env).2.1,
   (stage_acts_once fid q env).2.2,
   fun m hm => meta_err_last fid q m env hm,
   fun m hmem hdl => download_err_last fid q m env hmem hdl,
   fun m hmem hex => extract_err_last fid q m env hmem hex,
   fun m hmem hb => build_err_last fid q m env hmem hb,
   fun m hmem hdb => db_err_last fid q m env hmem hdb,
   fun m hmem ha => analysis_err_last fid q m env hmem ha,
   fun m b hmem hu => unlink_err_last fid q m b env hmem hu⟩

def envMetaBoom : Env :=
  { metaRes := Except.error "boom", downloadRes := Except.ok (), fileValid := true
  , extractRes := Except.ok (), dbDetailsRes := Except.ok (), frameResults := []
  , buildRes := Except.ok (), unlinkRes := Except.ok () }

/-- C2 witness: a concrete metadata exception "boom" is converted into the
terminal error event carrying that text. -/
theorem claim_C2_witness :
    (eventsOf (process_video "j" envMetaBoom "360p")).getLast?
      = some (errEvent "boom") :=
  (claim_C2 "j" "360p" envMetaBoom).2.2.2.2.2.1 "boom" rfl

end Soy

namespace Soy

/-! ## Claims C3 - C6 -/

/-- C3 (counterexample): `analyze_frame_colors` itself does NOT return its
clusters sorted by the hue/saturation/lightness key — it returns them in
k-means centroid enumeration order.  With the codebook `[blue, red]` (one
pixel assigned to each) the returned sequence is `[blue, red]`, whose HSL
keys are `(2/3, 1, 1/2)` and `(0, 1, 1/2)`: strictly descending. -/
theorem claim_C3_counterexample :
    ¬ List.Sorted clusterLe (analyze_frame_colors [(0, 0, 255), (255, 0, 0)] [0, 1]) := by
  with_unfolding_all decide

/-- C3 (amended): the ascending hue/saturation/lightness ordering is
produced by the Page Builder: `build_page` sorts each frame's cluster list
by the HSL key of the centroid RGB before rendering the color bars, so the
rendered sequence `sorted_clusters clusters` is always sorted ascending by
that key (for every cluster list, hence independent of which order k-means
initialization produced). -/
theorem claim_C3 (clusters : List Cluster) :
    List.Sorted clusterLe (sorted_clusters clusters) :=
  List.sorted_insertionSort clusterLe clusters

/-- C4 (code bug, evaluated at the failing input): with codebook
`[(0,0,0), (255,255,255)]` and every one of the 4 pixels assigned to
centroid 1, `np.unique` compacts the counts array to `[4]`, so centroid 0
— which has ZERO assigned pixels — reads `counts[0] = 4` and reports
percentage 100, while centroid 1 — which has ALL 4 pixels — falls outside
the counts array and reports percentage 0.  The claim (zero-pixel cluster
reports 0, each cluster reports its own share) predicts `[0, 100]`. -/
theorem claim_C4 :
    analyze_frame_colors [(0, 0, 0), (255, 255, 255)] [1, 1, 1, 1]
      = [{ color_rgb := (0, 0, 0), percentage := 100 },
         { color_rgb := (255, 255, 255), percentage := 0 }]
    ∧ [1, 1, 1, 1].count 0 = 0 ∧ [1, 1, 1, 1].count 1 = 4 := by
  refine ⟨by with_unfolding_all decide, by decide, by decide⟩

/-- C5 (counterexample): `build_page` does NOT skip frames with fewer than
2 clusters — its loop body has no filtering condition.  A single frame
whose analysis has exactly 1 cluster still produces one rendered entry
(the claim predicts zero rendered frames). -/
theorem claim_C5_counterexample :
    (frames_list "x" [{ frame_name := "frame_00.jpg"
                      , analysis := [{ color_rgb := (1, 2, 3), percentage := 100 }] }]).length = 1
    ∧ ([{ color_rgb := (1, 2, 3), percentage := (100 : ℤ) }] : List Cluster).length < 2 := by
  exact ⟨by simp [frames_list], by decide⟩

/-- C5 (amended): `build_page` emits exactly one color-bar stack and image
per FrameRecord — every frame is rendered regardless of its cluster count
(a frame with fewer than 2 clusters simply gets that many bars) — and the
page's column count is the number of rendered frames with a minimum of 1.
The bar stack of a frame has one bar per cluster (`sorted_clusters`
preserves length). -/
theorem claim_C5 (folderName : String) (frames : List FrameRec)
    (clusters : List Cluster) :
    (frames_list folderName frames).length = frames.length
    ∧ columns (frames_list folderName frames).length = max 1 frames.length
    ∧ (sorted_clusters clusters).length = clusters.length := by
  refine ⟨by simp [frames_list], ?_, List.length_insertionSort _ _⟩
  simp only [frames_list, columns, List.length_map]
  rcases Nat.eq_zero_or_pos frames.length with h | h
  · simp [h]
  · rw [if_pos h]
    omega

lemma tmp_ne_final (folder : String) : tmpPageName folder ≠ finalPageName folder := by
  intro h
  have h2 := congrArg String.length h
  rw [tmpPageName, finalPageName, String.length_append, String.length_append] at h2
  have e1 : ("/video.html.tmp" : String).length = 15 := by decide
  have e2 : ("/video.html" : String).length = 11 := by decide
  rw [e1, e2] at h2
  omega

/-- C6: `build_page` writes the whole rendered page to `video.html.tmp` in
the job folder and then atomically `os.replace`s it onto `video.html`.
After ANY prefix of its file operations, the content a reader finds at the
final path is either whatever was there before (absent, or a previous
complete render) or the complete new render — never a partial write.
Moreover no operation writes directly to the final path. -/
theorem claim_C6 (folder html : String) (s0 : FsState) (n : Nat) :
    ((applyOps s0 ((build_page_ops folder html).take n)).files (finalPageName folder)
        = s0.files (finalPageName folder)
      ∨ (applyOps s0 ((build_page_ops folder html).take n)).files (finalPageName folder)
        = some html)
    ∧ ∀ c, FileOp.write (finalPageName folder) c ∉ build_page_ops folder html := by
  constructor
  · have hne : finalPageName folder ≠ tmpPageName folder := (tmp_ne_final folder).symm
    match n with
    | 0 => exact Or.inl rfl
    | 1 => simp [build_page_ops, applyOps, applyOp, hne]
    | (k + 2) => simp [build_page_ops, applyOps, applyOp, hne]
  · intro c hmem
    simp only [build_page_ops, List.mem_cons, List.mem_singleton] at hmem
    rcases hmem with h | h | h
    · exact tmp_ne_final folder (congrArg (fun op => match op with
        | FileOp.write p _ => p
        | FileOp.replace s _ => s) h).symm
    · cases h
    · cases h

/-- C6 witness: the atomicity statement instantiated on an initially empty
folder, after both file operations. -/
theorem claim_C6_witness :
    ((applyOps ⟨fun _ => none⟩ ((build_page_ops "f" "H").take 2)).files
        (finalPageName "f")
        = FsState.files ⟨fun _ => none⟩ (finalPageName "f")
      ∨ (applyOps ⟨fun _ => none⟩ ((build_page_ops "f" "H").take 2)).files
          (finalPageName "f") = some "H")
    ∧ ∀ c, FileOp.write (finalPageName "f") c ∉ build_page_ops "f" "H" :=
  claim_C6 "f" "H" ⟨fun _ => none⟩ 2

end Soy
